import Mathlib

/-!
# gfs2 mkfs: the format orchestration of `gfs2/mkfs/main_mkfs.c`

A shallow embedding of `decode_arguments`, `verify_arguments`, `are_you_sure`,
`print_results` and `main_mkfs`.

* A run of the program is a value `Run α`: the sequence of externally visible
  actions performed so far (calls into libc / libgfs2, lines printed) together
  with how the run ended (`ok`, or one of the ways the process terminates).
* `die(...)` prints a diagnostic and terminates the process on the spot; it is
  `Stop.die` carrying the format string of the message.
* Everything `main_mkfs.c` calls but does not define (`getopt`, `atoi`,
  `test_locking`, `open`, `identify_device`, `fgets` on standard input, the
  libgfs2 builders, `fsync`, `close`) is a parameter: the record `World` holds
  what these collaborators answer, `CommandLine` holds what `getopt` yields.
* `unsigned int` fields are natural numbers; the places where the 32 bit width
  matters (`x <<= 1`, the conversion of `atoi`'s `int`) reduce modulo `2 ^ 32`.
* C strings are Lean strings, `strlen` is the length in bytes.
-/

namespace Gfs2Mkfs

/-! ## Runs -/

/-- External functions called by `main_mkfs.c`. -/
inductive Call
  | test_locking
  | open_device
  | identify_device
  | fgets
  | compute_constants
  | device_geometry
  | fix_device_geometry
  | compute_rgrp_layout
  | build_rgrps
  | build_root
  | build_master
  | build_sb
  | build_jindex
  | build_per_node
  | build_inum
  | build_statfs
  | build_rindex
  | build_quota
  | do_init
  | inode_put_root_dir
  | inode_put_master_dir
  | inode_put_inum_inode
  | inode_put_statfs_inode
  | bsync
  | fsync
  | close
  deriving DecidableEq

/-- One externally visible action of a run: a call of a collaborator, or a
`printf` / `fprintf(stderr, ...)` identified by its format string. -/
inductive Action
  | call (c : Call)
  | printf (fmt : String)
  | eprintf (fmt : String)
  deriving DecidableEq

/-- The ways the process terminates early: `die(fmt, ...)` in `main_mkfs.c`,
`exit(status)` in `main_mkfs.c`, or a collaborator that terminates the process
instead of returning. -/
inductive Stop
  | die (fmt : String)
  | exit (status : Nat)
  | lib (c : Call)
  deriving DecidableEq

/-- How a piece of code ended: it returned a value, or the process stopped. -/
inductive Outcome (α : Type)
  | ok (a : α)
  | stop (s : Stop)
  deriving DecidableEq

/-- The actions performed, in order, and the way the code ended. -/
structure Run (α : Type) where
  trace : List Action
  out : Outcome α
  deriving DecidableEq

/-- Sequencing: the second part runs only when the first one returned. -/
def Run.bind {α β : Type} (m : Run α) (f : α → Run β) : Run β :=
  match m.out with
  | .ok a => ⟨m.trace ++ (f a).trace, (f a).out⟩
  | .stop s => ⟨m.trace, .stop s⟩

instance : Monad Run where
  pure a := ⟨[], .ok a⟩
  bind := Run.bind

def EXIT_SUCCESS : Nat := 0
def EXIT_FAILURE : Nat := 1

/-- The macro `die(fmt, ...)`: diagnostic on stderr, then `exit(EXIT_FAILURE)`. -/
def die {α : Type} (fmt : String) : Run α := ⟨[], .stop (.die fmt)⟩

/-- The libc `exit(status)`. -/
def exit {α : Type} (status : Nat) : Run α := ⟨[], .stop (.exit status)⟩

def printf (fmt : String) : Run Unit := ⟨[.printf fmt], .ok ()⟩

def eprintf (fmt : String) : Run Unit := ⟨[.eprintf fmt], .ok ()⟩

/-! ## The data model -/

/-- Constants of `gfs2_mkfs.h`, `libgfs2.h` and `linux/gfs2_ondisk.h` used by
`main_mkfs.c`. -/
structure Config where
  GFS2_LOCKNAME_LEN : Nat
  GFS2_DEFAULT_BSIZE : Nat
  GFS2_DEFAULT_JSIZE : Nat
  GFS2_DEFAULT_RGSIZE : Nat
  GFS2_DEFAULT_UTSIZE : Nat
  GFS2_DEFAULT_QCSIZE : Nat

/-- The fields of `struct gfs2_sbd` that `main_mkfs.c` reads or writes itself. -/
structure gfs2_sbd where
  bsize : Nat
  jsize : Nat
  rgsize : Nat
  utsize : Nat
  qcsize : Nat
  journals : Nat
  debug : Bool
  quiet : Bool
  expert : Bool
  override : Bool
  lockproto : String
  locktable : String
  device_name : Option String
  device_fd : Int
  deriving DecidableEq

/-- What `getopt(argc, argv, "-b:c:DhJ:j:Op:qr:t:u:VX")` yields on a command
line: the successive pairs (return value, `optarg`) of its calls, and the words
`argv[optind], ..., argv[argc - 1]` left when it returns `EOF`. With the leading
`-` of the option string every non-option word met while scanning is returned
as the argument of the option with code `1`; words are only left over behind
a `--`. -/
structure CommandLine where
  events : List (Int × String)
  rest : List String

/-- The answers of the collaborators during one run. -/
structure World where
  /-- The libc `atoi`. -/
  atoi : String → Int
  /-- Whether `test_locking(lockproto, locktable)` returns (it dies otherwise). -/
  test_locking : String → String → Bool
  /-- The result of `open(device_name, O_RDWR)`. -/
  open_device : String → Int
  /-- The result of `identify_device(fd, buf, 1024)` and the text left in `buf`. -/
  identify_device : Int → Int × String
  /-- The bytes available on standard input. -/
  stdin : List Char
  /-- The content of the (uninitialised) automatic array `input[32]` of
  `are_you_sure` on entry. -/
  input : List Char
  /-- Whether a libgfs2 collaborator of type `void` returns: it terminates the
  process on an error of its own. -/
  returns : Call → Bool
  /-- The result of `fsync(fd)`. -/
  fsync : Int → Int
  /-- The result of `close(fd)`. -/
  close : Int → Int

/-- A call of a `void` collaborator. -/
def lib (w : World) (c : Call) : Run Unit :=
  ⟨[.call c], if w.returns c then .ok () else .stop (.lib c)⟩

/-- A call of a collaborator whose result is taken from the world. -/
def sys {α : Type} (c : Call) (result : α) : Run α := ⟨[.call c], .ok result⟩

def EOF : Int := -1

/-- The code of a character, as `getopt` returns it. -/
def chr (c : Char) : Int := c.toNat

/-- The libc `strlen`: length in bytes. -/
def strlen (s : String) : Nat := s.utf8ByteSize

/-- Conversion of an `int` to `unsigned int`. -/
def to_unsigned (i : Int) : Nat := (i % 2 ^ 32).toNat

/-! ## `print_usage` -/

def print_usage : Run Unit := do
  printf "Usage:\n"
  printf "\n"
  printf "%s [options] <device>\n"
  printf "\n"
  printf "Options:\n"
  printf "\n"
  printf "  -b <bytes>       Filesystem block size\n"
  printf "  -c <MB>          Size of quota change file\n"
  printf "  -D               Enable debugging code\n"
  printf "  -h               Print this help, then exit\n"
  printf "  -J <MB>          Size of journals\n"
  printf "  -j <num>         Number of journals\n"
  printf "  -O               Don't ask for confirmation\n"
  printf "  -p <name>        Name of the locking protocol\n"
  printf "  -q               Don't print anything\n"
  printf "  -r <MB>          Resource Group Size\n"
  printf "  -t <name>        Name of the lock table\n"
  printf "  -u <MB>          Size of unlinked file\n"
  printf "  -V               Print program version information, then exit\n"

/-! ## `decode_arguments` -/

/-- The body of the `switch (optchar)` of `decode_arguments`: the updated
structure and the value of `cont` afterwards. -/
def decode_case (cfg : Config) (w : World) (optchar : Int) (optarg : String)
    (sdp : gfs2_sbd) : Run (gfs2_sbd × Bool) :=
  if optchar = chr 'b' then
    pure ({ sdp with bsize := to_unsigned (w.atoi optarg) }, true)
  else if optchar = chr 'c' then
    pure ({ sdp with qcsize := to_unsigned (w.atoi optarg) }, true)
  else if optchar = chr 'D' then
    pure ({ sdp with debug := true }, true)
  else if optchar = chr 'h' then do
    print_usage
    exit EXIT_SUCCESS
  else if optchar = chr 'J' then
    pure ({ sdp with jsize := to_unsigned (w.atoi optarg) }, true)
  else if optchar = chr 'j' then
    pure ({ sdp with journals := to_unsigned (w.atoi optarg) }, true)
  else if optchar = chr 'O' then
    pure ({ sdp with override := true }, true)
  else if optchar = chr 'p' then do
    (if strlen optarg ≥ cfg.GFS2_LOCKNAME_LEN then
      die "lock protocol name %s is too long\n" else pure ())
    pure ({ sdp with lockproto := optarg }, true)
  else if optchar = chr 'q' then
    pure ({ sdp with quiet := true }, true)
  else if optchar = chr 'r' then
    pure ({ sdp with rgsize := to_unsigned (w.atoi optarg) }, true)
  else if optchar = chr 't' then do
    (if strlen optarg ≥ cfg.GFS2_LOCKNAME_LEN then
      die "lock table name %s is too long\n" else pure ())
    pure ({ sdp with locktable := optarg }, true)
  else if optchar = chr 'u' then
    pure ({ sdp with utsize := to_unsigned (w.atoi optarg) }, true)
  else if optchar = chr 'V' then do
    printf "gfs2_mkfs %s (built %s %s)\n"
    printf "%s\n"
    exit EXIT_SUCCESS
  else if optchar = chr 'X' then
    pure ({ sdp with expert := true }, true)
  else if optchar = chr ':' ∨ optchar = chr '?' then do
    eprintf "Please use '-h' for usage.\n"
    exit EXIT_FAILURE
  else if optchar = EOF then
    pure (sdp, false)
  else if optchar = 1 then
    if optarg = "gfs2" then
      pure (sdp, true)
    else do
      (if sdp.device_name.isSome then
        die "More than one device specified (try -h for help)" else pure ())
      pure ({ sdp with device_name := some optarg }, true)
  else
    die "unknown option: %c\n"

/-- The loop `while (cont) { optchar = getopt(...); switch (optchar) ... }` over
the successive results of `getopt`; once they are used up `getopt` returns
`EOF`, which clears `cont`. -/
def decode_loop (cfg : Config) (w : World) :
    List (Int × String) → gfs2_sbd → Run gfs2_sbd
  | [], sdp => pure sdp
  | (optchar, optarg) :: evs, sdp => do
    let (sdp1, cont) ← decode_case cfg w optchar optarg sdp
    if cont then decode_loop cfg w evs sdp1 else pure sdp1

/-- The `printf`s of `decode_arguments` under `sdp->debug`. -/
def print_arguments : Run Unit := do
  printf "Command Line Arguments:\n"
  printf "  bsize = %u\n"
  printf "  qcsize = %u\n"
  printf "  jsize = %u\n"
  printf "  journals = %u\n"
  printf "  override = %d\n"
  printf "  proto = %s\n"
  printf "  quiet = %d\n"
  printf "  rgsize = %u\n"
  printf "  table = %s\n"
  printf "  utsize = %u\n"
  printf "  device = %s\n"

def decode_arguments (cfg : Config) (w : World) (cmd : CommandLine)
    (sdp : gfs2_sbd) : Run gfs2_sbd := do
  let sdp ← decode_loop cfg w cmd.events { sdp with device_name := none }
  -- if ((sdp->device_name == NULL) && (optind < argc)) device_name = argv[optind++]
  let (sdp, rest) :=
    match sdp.device_name, cmd.rest with
    | none, arg :: rest => ({ sdp with device_name := some arg }, rest)
    | _, rest => (sdp, rest)
  (if sdp.device_name = none then
    die "no device specified (try -h for help)\n" else pure ())
  (if rest ≠ [] then
    die "Unrecognized argument: %s\n" else pure ())
  (if sdp.debug then
    print_arguments else pure ())
  pure sdp

/-! ## `verify_arguments` -/

/-- A bound on the number of iterations of the block size loop that are left
when the loop variable is `x`: an `unsigned int` shifted left 32 times is zero. -/
def wrapSteps (x : Nat) : Nat :=
  if x = 0 then 0
  else if 2 ^ 32 ≤ x then 34
  else 1 + Nat.find (show ∃ k, x * 2 ^ k % 2 ^ 32 = 0 from ⟨32, Nat.mul_mod_left _ _⟩)

/-- The loop `for (x = 512; x; x <<= 1) if (x == sdp->bsize) break;` entered
with the loop variable `x` (an `unsigned int`): the value of `x` when the loop
is left. -/
def bsize_search (bsize : Nat) (x : Nat) : Nat :=
  if x = 0 then 0
  else if x = bsize then x
  else bsize_search bsize ((x <<< 1) % 2 ^ 32)
termination_by wrapSteps x
decreasing_by
  rename_i hx _
  have hlt : (x <<< 1) % 2 ^ 32 < 2 ^ 32 := Nat.mod_lt _ (by norm_num)
  have hfy : Nat.find (show ∃ k, (x <<< 1) % 2 ^ 32 * 2 ^ k % 2 ^ 32 = 0 from
      ⟨32, Nat.mul_mod_left _ _⟩) ≤ 32 := Nat.find_le (Nat.mul_mod_left _ _)
  have hspec := Nat.find_spec (show ∃ k, x * 2 ^ k % 2 ^ 32 = 0 from ⟨32, Nat.mul_mod_left _ _⟩)
  by_cases hy : (x <<< 1) % 2 ^ 32 = 0
  · rw [hy]
    unfold wrapSteps
    simp only [if_true, if_neg hx]
    split <;> omega
  · by_cases hbig : 2 ^ 32 ≤ x
    · unfold wrapSteps
      rw [if_neg hy, if_neg (by omega), if_neg hx, if_pos hbig]
      omega
    · unfold wrapSteps
      rw [if_neg hy, if_neg (by omega), if_neg hx, if_neg hbig]
      have hpos : Nat.find (show ∃ k, x * 2 ^ k % 2 ^ 32 = 0 from
          ⟨32, Nat.mul_mod_left _ _⟩) ≠ 0 := by
        intro h0
        rw [h0] at hspec
        simp at hspec
        have := Nat.mod_eq_of_lt (show x < 2 ^ 32 by omega)
        omega
      obtain ⟨j, hj⟩ := Nat.exists_eq_succ_of_ne_zero hpos
      have hle : Nat.find (show ∃ k, (x <<< 1) % 2 ^ 32 * 2 ^ k % 2 ^ 32 = 0 from
          ⟨32, Nat.mul_mod_left _ _⟩) ≤ j := by
        apply Nat.find_le
        rw [hj] at hspec
        have e : x * 2 ^ 1 * 2 ^ j = x * 2 ^ j.succ := by
          rw [show j.succ = j + 1 from rfl]; ring
        rw [Nat.mod_mul_mod, Nat.shiftLeft_eq, e]
        exact hspec
      omega

/-- The libgfs2 `test_locking(lockproto, locktable)`: it returns when the pair
is acceptable and terminates the process otherwise. -/
def test_locking (w : World) (lockproto locktable : String) : Run Unit :=
  ⟨[.call .test_locking],
    if w.test_locking lockproto locktable then .ok () else .stop (.lib .test_locking)⟩

def verify_arguments (w : World) (sdp : gfs2_sbd) : Run Unit := do
  (if !sdp.expert then
    test_locking w sdp.lockproto sdp.locktable else pure ())
  let x := bsize_search sdp.bsize 512
  (if x = 0 ∨ sdp.bsize > 65536 then
    die "block size must be a power of two between 512 and 65536\n" else pure ())
  (if sdp.expert then
    (if 1 > sdp.rgsize ∨ sdp.rgsize > 2048 then
      die "bad resource group size\n" else pure ())
  else
    (if 32 > sdp.rgsize ∨ sdp.rgsize > 2048 then
      die "bad resource group size\n" else pure ()))
  (if sdp.journals = 0 then
    die "no journals specified\n" else pure ())
  (if sdp.jsize < 8 ∨ sdp.jsize > 1024 then
    die "bad journal size\n" else pure ())
  (if sdp.utsize = 0 ∨ sdp.utsize > 64 then
    die "bad unlinked size\n" else pure ())
  (if sdp.qcsize = 0 ∨ sdp.qcsize > 64 then
    die "bad quota change size\n" else pure ())

/-! ## `are_you_sure` -/

/-- The characters `fgets` takes from the stream when `n` more fit: it stops
behind the first newline. -/
def read_line : Nat → List Char → List Char
  | 0, _ => []
  | _, [] => []
  | n + 1, c :: cs => if c = '\n' then [c] else c :: read_line n cs

/-- The libc `fgets(s, size, stream)`: whether it returned `s` (and not `NULL`),
and the content of the array `s` afterwards. Nothing is stored when no
character could be read. -/
def fgets (s : List Char) (size : Nat) (stream : List Char) : Bool × List Char :=
  match stream with
  | [] => (false, s)
  | _ =>
    let line := read_line (size - 1) stream
    (true, line ++ [Char.ofNat 0] ++ s.drop (line.length + 1))

def are_you_sure (w : World) (sdp : gfs2_sbd) : Run Unit := do
  let (unknown, _buf) ← sys .identify_device (w.identify_device sdp.device_fd)
  (if unknown < 0 then
    die "error identifying the contents of %s: %s\n" else pure ())
  printf "This will destroy any data on %s.\n"
  (if unknown = 0 then
    printf "  It appears to contain a %s.\n" else pure ())
  printf "\nAre you sure you want to proceed? [y/n] "
  let (_, input) ← sys .fgets (fgets w.input 32 w.stdin)
  (if input.headD (Char.ofNat 0) ≠ 'y' then
    die "aborted\n"
  else
    printf "\n")

/-! ## `print_results` -/

/-- The `printf`s of `print_results` behind the test of `debug` and `quiet`. -/
def print_summary (sdp : gfs2_sbd) : Run Unit := do
  (if sdp.expert then
    printf "Expert mode:               on\n" else pure ())
  printf "Device:                    %s\n"
  printf "Blocksize:                 %u\n"
  printf "Device Size                %.2f GB (%PRIu64 blocks)\n"
  printf "Filesystem Size:           %.2f GB (%PRIu64 blocks)\n"
  printf "Journals:                  %u\n"
  printf "Resource Groups:           %PRIu64\n"
  printf "Locking Protocol:          \"%s\"\n"
  printf "Lock Table:                \"%s\"\n"
  (if sdp.debug then do
    printf "\n"
    printf "Spills:                    %u\n"
    printf "Writes:                    %u\n"
  else pure ())
  printf "\n"

def print_results (sdp : gfs2_sbd) : Run Unit :=
  if sdp.debug then do
    printf "\n"
    print_summary sdp
  else if sdp.quiet then
    pure ()
  else
    print_summary sdp

/-! ## `main_mkfs` -/

/-- The structure after `memset(sdp, 0, sizeof(struct gfs2_sbd))` and the
assignment of the default sizes. -/
def init_sbd (cfg : Config) : gfs2_sbd :=
  { bsize := cfg.GFS2_DEFAULT_BSIZE
    jsize := cfg.GFS2_DEFAULT_JSIZE
    rgsize := cfg.GFS2_DEFAULT_RGSIZE
    utsize := cfg.GFS2_DEFAULT_UTSIZE
    qcsize := cfg.GFS2_DEFAULT_QCSIZE
    journals := 0
    debug := false
    quiet := false
    expert := false
    override := false
    lockproto := ""
    locktable := ""
    device_name := none
    device_fd := 0 }

def main_mkfs (cfg : Config) (w : World) (cmd : CommandLine) : Run Unit := do
  let sdp := init_sbd cfg
  let sdp ← decode_arguments cfg w cmd sdp
  verify_arguments w sdp
  let fd ← sys .open_device (w.open_device (sdp.device_name.getD ""))
  let sdp := { sdp with device_fd := fd }
  (if sdp.device_fd < 0 then
    die "can't open device %s: %s\n" else pure ())
  (if !sdp.override then
    are_you_sure w sdp else pure ())
  lib w .compute_constants
  -- Get the device geometry
  lib w .device_geometry
  lib w .fix_device_geometry
  -- Compute the resource group layouts
  lib w .compute_rgrp_layout
  -- Build ondisk structures
  lib w .build_rgrps
  lib w .build_root
  lib w .build_master
  lib w .build_sb
  lib w .build_jindex
  lib w .build_per_node
  lib w .build_inum
  lib w .build_statfs
  lib w .build_rindex
  lib w .build_quota
  lib w .do_init
  -- Cleanup
  lib w .inode_put_root_dir
  lib w .inode_put_master_dir
  lib w .inode_put_inum_inode
  lib w .inode_put_statfs_inode
  lib w .bsync
  let error ← sys .fsync (w.fsync sdp.device_fd)
  (if error ≠ 0 then
    die "can't fsync device (%d): %s\n" else pure ())
  let error ← sys .close (w.close sdp.device_fd)
  (if error ≠ 0 then
    die "error closing device (%d): %s\n" else pure ())
  print_results sdp

/-! ## The stages of `main_mkfs`

The body of `main_mkfs` behind `verify_arguments` falls into three stages;
`main_mkfs_eq` below states that `main_mkfs` is their sequence. -/

/-- The stage from `open` to the confirmation gate: the structure with the
file descriptor stored. -/
def open_and_confirm (w : World) (sdp : gfs2_sbd) : Run gfs2_sbd := do
  let fd ← sys .open_device (w.open_device (sdp.device_name.getD ""))
  let sdp := { sdp with device_fd := fd }
  (if sdp.device_fd < 0 then
    die "can't open device %s: %s\n" else pure ())
  (if !sdp.override then
    are_you_sure w sdp else pure ())
  pure sdp

/-- The libgfs2 calls of `main_mkfs` from `compute_constants` to `bsync`, in
the order of the source. -/
def construction_calls : List Call :=
  [.compute_constants, .device_geometry, .fix_device_geometry, .compute_rgrp_layout,
   .build_rgrps, .build_root, .build_master, .build_sb, .build_jindex, .build_per_node,
   .build_inum, .build_statfs, .build_rindex, .build_quota, .do_init,
   .inode_put_root_dir, .inode_put_master_dir, .inode_put_inum_inode,
   .inode_put_statfs_inode, .bsync]

/-- A sequence of calls of `void` collaborators. -/
def lib_seq (w : World) : List Call → Run Unit
  | [] => pure ()
  | c :: cs => do
    lib w c
    lib_seq w cs

/-- The last stage: `fsync`, `close` and `print_results`. -/
def release_device (w : World) (sdp : gfs2_sbd) : Run Unit := do
  let error ← sys .fsync (w.fsync sdp.device_fd)
  (if error ≠ 0 then
    die "can't fsync device (%d): %s\n" else pure ())
  let error ← sys .close (w.close sdp.device_fd)
  (if error ≠ 0 then
    die "error closing device (%d): %s\n" else pure ())
  print_results sdp

/-- The body of `main_mkfs` behind the confirmation gate. -/
def construct (w : World) (sdp : gfs2_sbd) : Run Unit := do
  lib_seq w construction_calls
  release_device w sdp

/-- The body of `main_mkfs` behind `verify_arguments`. -/
def format_device (w : World) (sdp : gfs2_sbd) : Run Unit := do
  let sdp1 ← open_and_confirm w sdp
  construct w sdp1

/-- The character `input[0]` that `are_you_sure` tests: the first one of the
array `input` after `fgets(input, 32, stdin)`. -/
def answer (w : World) : Char := (fgets w.input 32 w.stdin).2.headD (Char.ofNat 0)

/-! ## Notions of the specification -/

/-- The values the loop variable of the block size loop takes before it wraps
to zero: 512, 1024, ..., 2 ^ 31. -/
def search_values : List Nat :=
  [512, 1024, 2048, 4096, 8192, 16384, 32768, 65536, 131072, 262144, 524288,
   1048576, 2097152, 4194304, 8388608, 16777216, 33554432, 67108864, 134217728,
   268435456, 536870912, 1073741824, 2147483648]

/-- The block sizes the specification allows. -/
def valid_block_sizes : List Nat := [512, 1024, 2048, 4096, 8192, 16384, 32768, 65536]

/-- The size bounds of the specification, all inclusive: resource-group size
1..2048 in expert mode and 32..2048 otherwise, at least one journal, journal
size 8..1024, unlinked-file size 1..64, quota-change size 1..64. -/
def sizes_in_bounds (sdp : gfs2_sbd) : Prop :=
  (if sdp.expert then 1 ≤ sdp.rgsize ∧ sdp.rgsize ≤ 2048
    else 32 ≤ sdp.rgsize ∧ sdp.rgsize ≤ 2048) ∧
  1 ≤ sdp.journals ∧
  (8 ≤ sdp.jsize ∧ sdp.jsize ≤ 1024) ∧
  (1 ≤ sdp.utsize ∧ sdp.utsize ≤ 64) ∧
  (1 ≤ sdp.qcsize ∧ sdp.qcsize ≤ 64)

instance (sdp : gfs2_sbd) : Decidable (sizes_in_bounds sdp) := by
  unfold sizes_in_bounds; infer_instance

/-- The locking check passes, or is skipped in expert mode. -/
def locking_passes (w : World) (sdp : gfs2_sbd) : Prop :=
  sdp.expert = true ∨ w.test_locking sdp.lockproto sdp.locktable = true

instance (w : World) (sdp : gfs2_sbd) : Decidable (locking_passes w sdp) := by
  unfold locking_passes; infer_instance

/-- The results of `getopt` that the loop of `decode_arguments` looks at: those
before the first `EOF`. -/
def scanned (events : List (Int × String)) : List (Int × String) :=
  events.takeWhile (fun e => e.1 ≠ EOF)

/-- The values `getopt` hands over for the option with code `c`, in order. -/
def values_of (c : Int) (events : List (Int × String)) : List String :=
  ((scanned events).filter (fun e => e.1 = c)).map Prod.snd

/-- The positional (non-option) arguments of a command line: the words returned
in order with code `1` and the words left behind a `--`. -/
def positional_arguments (cmd : CommandLine) : List String :=
  values_of 1 cmd.events ++ cmd.rest

/-- The positional arguments that name a device: all of them except the words
`gfs2` met in order, which `decode_arguments` skips. -/
def device_words (cmd : CommandLine) : List String :=
  (values_of 1 cmd.events).filter (fun a => a ≠ "gfs2") ++ cmd.rest

/-- The calls that act on the device or prepare the structures written to it:
every collaborator except the locking check and the read of standard input. -/
def device_action : Action → Bool
  | .call .test_locking => false
  | .call .fgets => false
  | .call _ => true
  | _ => false

/-- The builders in the order of the specification, and the final
initialisation pass. -/
def builders : List Call :=
  [.build_rgrps, .build_root, .build_master, .build_sb, .build_jindex, .build_per_node,
   .build_inum, .build_statfs, .build_rindex, .build_quota, .do_init]

def is_builder : Action → Bool
  | .call c => decide (c ∈ builders)
  | _ => false

/-- The geometry probe and the builders. -/
def geometry_or_builder : Action → Bool
  | .call c => decide (c ∈ [Call.device_geometry, Call.fix_device_geometry] ++ builders)
  | _ => false

/-- The two actions that release the device handle. -/
def is_release : Action → Bool
  | .call .fsync => true
  | .call .close => true
  | _ => false

/-- The return values of `getopt` that have a `case` of their own in
`decode_arguments`: the option characters, `:`, `?`, `EOF` and `1`. -/
def case_codes : List Int :=
  [98, 99, 68, 104, 74, 106, 79, 112, 113, 114, 116, 117, 86, 88, 58, 63, -1, 1]

def is_call : Action → Bool
  | .call _ => true
  | _ => false

/-- The calls of a run, in order: its trace without the lines printed. -/
def calls {α : Type} (r : Run α) : List Action := r.trace.filter is_call

/-- The confirmation gate lets the run pass: it is skipped by the override
flag, or `identify_device` succeeded and the answer starts with `y`. -/
def gate_passes (w : World) (sdp : gfs2_sbd) : Prop :=
  sdp.override = true ∨
    (0 ≤ (w.identify_device (w.open_device (sdp.device_name.getD ""))).1 ∧ answer w = 'y')

instance (w : World) (sdp : gfs2_sbd) : Decidable (gate_passes w sdp) := by
  unfold gate_passes; infer_instance

/-- The calls of the confirmation gate: none under the override flag,
`identify_device` and, unless that failed, the `fgets` of the answer. -/
def gate_calls (w : World) (sdp : gfs2_sbd) : List Action :=
  if sdp.override = true then []
  else if (w.identify_device (w.open_device (sdp.device_name.getD ""))).1 < 0 then
    [.call .identify_device]
  else [.call .identify_device, .call .fgets]

/-- The actions of the stage from `open` to the confirmation gate: the calls
of `open`, `identify_device` and `fgets`, and lines printed. -/
def opening_action : Action → Bool
  | .call .open_device => true
  | .call .identify_device => true
  | .call .fgets => true
  | .call _ => false
  | _ => true

/-- The actions of the stage behind the gate: the libgfs2 calls from
`compute_constants` to `bsync`, `fsync`, `close`, and lines printed. -/
def construct_action : Action → Bool
  | .call c => decide (c ∈ construction_calls ++ [Call.fsync, Call.close])
  | _ => true

/-- The completion actions of `main_mkfs` from `do_init` to `close`. -/
def completion_calls : List Call :=
  [.do_init, .inode_put_root_dir, .inode_put_master_dir, .inode_put_inum_inode,
   .inode_put_statfs_inode, .bsync, .fsync, .close]

/-- A run that calls no collaborator: it only prints. -/
def silent {α : Type} (r : Run α) : Prop := ∀ x ∈ r.trace, is_call x = false

/-- The command line `gfs2_mkfs gfs2 /dev/sdb`: two positional arguments. -/
def gfs2_word_command : CommandLine := ⟨[(1, "gfs2"), (1, "/dev/sdb")], []⟩

/-- The command line `gfs2_mkfs -b 1000 -j 2 /dev/sdb`: a block size that is
not a power of two. -/
def bad_block_command : CommandLine :=
  ⟨[(chr 'b', "1000"), (chr 'j', "2"), (1, "/dev/sdb")], []⟩

/-- The command line `gfs2_mkfs -p <64 times a> /dev/sdb`: a protocol name of
64 bytes. -/
def long_name_command : CommandLine :=
  ⟨[(chr 'p', String.mk (List.replicate 64 'a')), (1, "/dev/sdb")], []⟩

/-- The command line `gfs2_mkfs -h`: no positional argument. -/
def help_command : CommandLine := ⟨[(chr 'h', "")], []⟩

/-! ## Sample data -/

/-- A model of the libc `atoi` on decimal numerals: blanks, a sign, digits. -/
def atoi_model (s : String) : Int :=
  let cs := s.toList.dropWhile Char.isWhitespace
  let ds := match cs with
    | '-' :: r => r
    | '+' :: r => r
    | r => r
  let n : Nat := (ds.takeWhile Char.isDigit).foldl (fun a c => 10 * a + (c.toNat - 48)) 0
  match cs with
  | '-' :: _ => - (n : Int)
  | _ => n

/-- The constants of the headers: lock names of at most 63 bytes, 4096 byte
blocks, 32 MB journals, 256 MB resource groups, 1 MB unlinked and quota files. -/
def sample_config : Config := ⟨64, 4096, 32, 256, 1, 1⟩

/-- A world in which every collaborator succeeds: the device opens as
descriptor 3, its content is not recognised, the user types `y`. -/
def sample_world : World :=
  { atoi := atoi_model
    test_locking := fun _ _ => true
    open_device := fun _ => 3
    identify_device := fun _ => (1, "")
    stdin := ['y', '\n']
    input := List.replicate 32 'x'
    returns := fun _ => true
    fsync := fun _ => 0
    close := fun _ => 0 }

/-- The command line `gfs2_mkfs -j 2 -p lock_nolock /dev/sdb`. -/
def sample_command : CommandLine :=
  ⟨[(chr 'j', "2"), (chr 'p', "lock_nolock"), (1, "/dev/sdb")], []⟩

/-- The structure `decode_arguments` returns on `sample_command`. -/
def sample_sbd : gfs2_sbd :=
  { init_sbd sample_config with
    journals := 2, lockproto := "lock_nolock", device_name := some "/dev/sdb" }

/-- The sample world with a device whose content cannot be identified:
`identify_device` returns -1. -/
def ident_fail_world : World :=
  { sample_world with identify_device := fun _ => (-1, "") }

/-- The sample world with standard input at end of file, and an array `input`
whose first byte happens to be `y` on entry of `are_you_sure`. -/
def eof_world : World :=
  { sample_world with stdin := [], input := 'y' :: List.replicate 31 'x' }

/-! ## Sequencing lemmas -/

theorem bind_eq {α β : Type} (m : Run α) (f : α → Run β) : m >>= f = Run.bind m f := rfl

theorem pure_eq {α : Type} (a : α) : (pure a : Run α) = ⟨[], .ok a⟩ := rfl

theorem bind_out_ok {α β : Type} (m : Run α) (f : α → Run β) (b : β) :
    (Run.bind m f).out = .ok b ↔ ∃ a, m.out = .ok a ∧ (f a).out = .ok b := by
  unfold Run.bind
  cases h : m.out with
  | ok a => simp
  | stop s => simp

theorem bind_of_ok {α β : Type} (m : Run α) (f : α → Run β) (a : α) (h : m.out = .ok a) :
    Run.bind m f = ⟨m.trace ++ (f a).trace, (f a).out⟩ := by
  unfold Run.bind; rw [h]

theorem bind_of_stop {α β : Type} (m : Run α) (f : α → Run β) (s : Stop)
    (h : m.out = .stop s) : Run.bind m f = ⟨m.trace, .stop s⟩ := by
  unfold Run.bind; rw [h]

theorem check_out_ok (c : Prop) [Decidable c] (fmt : String) (a : Unit) :
    (if c then (die fmt : Run Unit) else pure ()).out = .ok a ↔ ¬ c := by
  by_cases h : c <;> simp [h, die, pure_eq]

/-! ## The block size loop -/

theorem bsize_search_512 (b : Nat) :
    bsize_search b 512 = if b ∈ search_values then b else 0 := by
  by_cases hb : b ∈ search_values
  · rw [if_pos hb]
    simp only [search_values, List.mem_cons, List.mem_singleton, List.not_mem_nil, or_false] at hb
    rcases hb with h | h | h | h | h | h | h | h | h | h | h | h | h | h | h | h | h | h
      | h | h | h | h | h <;> subst h <;> simp [bsize_search]
  · rw [if_neg hb]
    simp only [search_values, List.mem_cons, List.mem_singleton, List.not_mem_nil, or_false,
      not_or] at hb
    obtain ⟨h1, h2, h3, h4, h5, h6, h7, h8, h9, h10, h11, h12, h13, h14, h15, h16, h17, h18,
      h19, h20, h21, h22, h23⟩ := hb
    simp [bsize_search, Ne.symm h1, Ne.symm h2, Ne.symm h3, Ne.symm h4, Ne.symm h5, Ne.symm h6,
      Ne.symm h7, Ne.symm h8, Ne.symm h9, Ne.symm h10, Ne.symm h11, Ne.symm h12, Ne.symm h13,
      Ne.symm h14, Ne.symm h15, Ne.symm h16, Ne.symm h17, Ne.symm h18, Ne.symm h19,
      Ne.symm h20, Ne.symm h21, Ne.symm h22, Ne.symm h23]

theorem block_size_test (b : Nat) :
    ¬ (bsize_search b 512 = 0 ∨ b > 65536) ↔ b ∈ valid_block_sizes := by
  rw [bsize_search_512]
  simp only [search_values, valid_block_sizes, List.mem_cons, List.mem_singleton,
    List.not_mem_nil, or_false]
  constructor
  · intro h
    split at h
    · omega
    · simp at h
  · intro h
    rw [if_pos (by omega)]
    omega

/-! ## `verify_arguments` -/

theorem verify_arguments_ok_iff (w : World) (sdp : gfs2_sbd) :
    (verify_arguments w sdp).out = .ok () ↔
      locking_passes w sdp ∧ sdp.bsize ∈ valid_block_sizes ∧ sizes_in_bounds sdp := by
  unfold verify_arguments
  simp only [bind_eq, bind_out_ok, check_out_ok, exists_const, block_size_test]
  unfold locking_passes sizes_in_bounds test_locking
  cases hx : sdp.expert <;> cases hl : w.test_locking sdp.lockproto sdp.locktable <;>
    simp [check_out_ok] <;> (try simp [pure_eq]) <;> intros <;> omega

theorem verify_arguments_bad_bsize (w : World) (sdp : gfs2_sbd)
    (hlock : locking_passes w sdp) (hb : sdp.bsize ∉ valid_block_sizes) :
    (verify_arguments w sdp).out =
      .stop (.die "block size must be a power of two between 512 and 65536\n") := by
  have hc : bsize_search sdp.bsize 512 = 0 ∨ sdp.bsize > 65536 := by
    by_contra h
    exact hb ((block_size_test _).1 h)
  unfold verify_arguments
  unfold locking_passes at hlock
  cases hx : sdp.expert <;> cases hl : w.test_locking sdp.lockproto sdp.locktable <;>
    simp [hx, hl] at hlock <;>
    simp [bind_eq, Run.bind, test_locking, pure_eq, die, hl, hc]

/-- C2: with the other parameters valid and the locking check passing,
`verify_arguments` passes exactly for the block sizes 512, 1024, 2048, 4096,
8192, 16384, 32768 and 65536. The doubling loop started at 512 is left for
every block size, with the loop variable equal to the block size when that is
one of 512, ..., 2 ^ 31 and wrapped to 0 otherwise; 0, 511, 65537, 131072 and
2 ^ 31 are rejected (with the block size diagnostic), 512 and 65536 accepted. -/
theorem C2_block_size_validation (w : World) (sdp : gfs2_sbd) (b : Nat)
    (hlock : locking_passes w sdp) (hsizes : sizes_in_bounds sdp) :
    ((verify_arguments w { sdp with bsize := b }).out = .ok () ↔ b ∈ valid_block_sizes) ∧
    (b ∉ valid_block_sizes →
      (verify_arguments w { sdp with bsize := b }).out =
        .stop (.die "block size must be a power of two between 512 and 65536\n")) ∧
    ((b ∈ search_values ∧ bsize_search b 512 = b) ∨
      (b ∉ search_values ∧ bsize_search b 512 = 0)) ∧
    (2 ^ 31 <<< 1) % 2 ^ 32 = 0 ∧
    (∀ b' ∈ [0, 511, 65537, 131072, 2 ^ 31],
      (verify_arguments w { sdp with bsize := b' }).out ≠ .ok ()) ∧
    (∀ b' ∈ [512, 65536], (verify_arguments w { sdp with bsize := b' }).out = .ok ()) := by
  have key : ∀ n : Nat, (verify_arguments w { sdp with bsize := n }).out = .ok () ↔
      n ∈ valid_block_sizes := by
    intro n
    rw [verify_arguments_ok_iff]
    constructor
    · intro h; exact h.2.1
    · intro h; exact ⟨hlock, h, hsizes⟩
  refine ⟨key b, ?_, ?_, by norm_num [Nat.shiftLeft_eq], ?_, ?_⟩
  · intro hb
    exact verify_arguments_bad_bsize w { sdp with bsize := b } hlock hb
  · rw [bsize_search_512]
    by_cases h : b ∈ search_values
    · left; exact ⟨h, if_pos h⟩
    · right; exact ⟨h, if_neg h⟩
  · intro n hn
    rw [Ne, key]
    simp only [List.mem_cons, List.mem_singleton, List.not_mem_nil, or_false] at hn
    rcases hn with h | h | h | h | h <;> subst h <;> simp [valid_block_sizes]
  · intro n hn
    rw [key]
    simp only [List.mem_cons, List.mem_singleton, List.not_mem_nil, or_false] at hn
    rcases hn with h | h <;> subst h <;> simp [valid_block_sizes]

theorem C2_block_size_validation_witness :
    locking_passes sample_world sample_sbd ∧ sizes_in_bounds sample_sbd ∧
    ((verify_arguments sample_world { sample_sbd with bsize := 4096 }).out = .ok () ↔
      4096 ∈ valid_block_sizes) :=
  ⟨by decide, by decide,
    (C2_block_size_validation sample_world sample_sbd 4096 (by decide) (by decide)).1⟩

/-- C3: with a valid block size and the locking check passing (or skipped in
expert mode), `verify_arguments` passes exactly when the inclusive bounds of
the specification hold. For a request that is within the bounds: resource-group
size 2049 fails in both modes, 31 and 1 pass only in expert mode, 32 passes;
journal size 7 and 1025 fail, 8 and 1024 pass; journal count 0 fails; unlinked
or quota-change size 0 or 65 fails, 1 and 64 pass. -/
theorem C3_size_bounds (w : World) (sdp : gfs2_sbd)
    (hb : sdp.bsize ∈ valid_block_sizes) (hlock : locking_passes w sdp) :
    ((verify_arguments w sdp).out = .ok () ↔ sizes_in_bounds sdp) ∧
    (sizes_in_bounds sdp →
      (verify_arguments w { sdp with rgsize := 2049 }).out ≠ .ok () ∧
      ((verify_arguments w { sdp with rgsize := 31 }).out = .ok () ↔ sdp.expert = true) ∧
      ((verify_arguments w { sdp with rgsize := 1 }).out = .ok () ↔ sdp.expert = true) ∧
      (verify_arguments w { sdp with rgsize := 32 }).out = .ok () ∧
      (verify_arguments w { sdp with jsize := 7 }).out ≠ .ok () ∧
      (verify_arguments w { sdp with jsize := 1025 }).out ≠ .ok () ∧
      (verify_arguments w { sdp with jsize := 8 }).out = .ok () ∧
      (verify_arguments w { sdp with jsize := 1024 }).out = .ok () ∧
      (verify_arguments w { sdp with journals := 0 }).out ≠ .ok () ∧
      (verify_arguments w { sdp with utsize := 0 }).out ≠ .ok () ∧
      (verify_arguments w { sdp with utsize := 65 }).out ≠ .ok () ∧
      (verify_arguments w { sdp with utsize := 64 }).out = .ok () ∧
      (verify_arguments w { sdp with qcsize := 0 }).out ≠ .ok () ∧
      (verify_arguments w { sdp with qcsize := 65 }).out ≠ .ok () ∧
      (verify_arguments w { sdp with qcsize := 64 }).out = .ok ()) := by
  have key : ∀ s : gfs2_sbd, s.bsize = sdp.bsize → s.expert = sdp.expert →
      s.lockproto = sdp.lockproto → s.locktable = sdp.locktable →
      ((verify_arguments w s).out = .ok () ↔ sizes_in_bounds s) := by
    intro s h1 h2 h3 h4
    rw [verify_arguments_ok_iff]
    constructor
    · intro h; exact h.2.2
    · intro h
      refine ⟨?_, by rw [h1]; exact hb, h⟩
      unfold locking_passes at hlock ⊢
      rw [h2, h3, h4]; exact hlock
  refine ⟨key sdp rfl rfl rfl rfl, ?_⟩
  intro hs
  unfold sizes_in_bounds at hs
  unfold locking_passes at hlock
  refine ⟨?_, ?_, ?_, ?_, ?_, ?_, ?_, ?_, ?_, ?_, ?_, ?_, ?_, ?_, ?_⟩ <;>
    simp only [Ne, verify_arguments_ok_iff] <;>
    unfold sizes_in_bounds locking_passes <;>
    cases hx : sdp.expert <;> simp [hx, hb] at hs hlock ⊢ <;>
    (try simp [hlock]) <;> omega

theorem C3_size_bounds_witness :
    sample_sbd.bsize ∈ valid_block_sizes ∧ locking_passes sample_world sample_sbd ∧
    ((verify_arguments sample_world sample_sbd).out = .ok () ↔ sizes_in_bounds sample_sbd) :=
  ⟨by decide, by decide, (C3_size_bounds sample_world sample_sbd (by decide) (by decide)).1⟩

/-! ## `decode_arguments` -/

theorem pure_out {α : Type} (a : α) : (pure a : Run α).out = .ok a := rfl

theorem pure_trace {α : Type} (a : α) : (pure a : Run α).trace = [] := rfl

theorem die_out {α : Type} (fmt : String) : (die fmt : Run α).out = .stop (.die fmt) := rfl

theorem exit_out {α : Type} (n : Nat) : (exit n : Run α).out = .stop (.exit n) := rfl

theorem printf_out (fmt : String) : (printf fmt).out = .ok () := rfl

theorem eprintf_out (fmt : String) : (eprintf fmt).out = .ok () := rfl

theorem print_usage_out : print_usage.out = .ok () := by decide

theorem check_out_stop (c : Prop) [Decidable c] (fmt : String) (s : Stop) :
    (if c then (die fmt : Run Unit) else pure ()).out = .stop s ↔ c ∧ s = .die fmt := by
  by_cases h : c <;> simp [h, die, pure_eq, eq_comm]

theorem bind_out_stop {α β : Type} (m : Run α) (f : α → Run β) (s : Stop) :
    (Run.bind m f).out = .stop s ↔
      m.out = .stop s ∨ ∃ a, m.out = .ok a ∧ (f a).out = .stop s := by
  unfold Run.bind
  cases h : m.out with
  | ok a => simp
  | stop s => simp

theorem bind_trace_all {α β : Type} (P : Action → Prop) (m : Run α) (f : α → Run β)
    (hm : ∀ x ∈ m.trace, P x) (hf : ∀ a, ∀ x ∈ (f a).trace, P x) :
    ∀ x ∈ (Run.bind m f).trace, P x := by
  unfold Run.bind
  cases h : m.out with
  | ok a =>
    intro x hx
    simp only [List.mem_append] at hx
    rcases hx with hx | hx
    · exact hm x hx
    · exact hf a x hx
  | stop s => exact hm

theorem chr_values :
    chr 'b' = 98 ∧ chr 'c' = 99 ∧ chr 'D' = 68 ∧ chr 'h' = 104 ∧ chr 'J' = 74 ∧
    chr 'j' = 106 ∧ chr 'O' = 79 ∧ chr 'p' = 112 ∧ chr 'q' = 113 ∧ chr 'r' = 114 ∧
    chr 't' = 116 ∧ chr 'u' = 117 ∧ chr 'V' = 86 ∧ chr 'X' = 88 ∧ chr ':' = 58 ∧
    chr '?' = 63 ∧ EOF = -1 := by decide

theorem decode_case_default (cfg : Config) (w : World) (c : Int) (a : String)
    (sdp : gfs2_sbd) (hc : c ∉ case_codes) :
    decode_case cfg w c a sdp = die "unknown option: %c\n" := by
  obtain ⟨e1, e2, e3, e4, e5, e6, e7, e8, e9, e10, e11, e12, e13, e14, e15, e16, e17⟩ :=
    chr_values
  simp only [case_codes, List.mem_cons, List.mem_singleton, List.not_mem_nil, or_false,
    not_or] at hc
  obtain ⟨h1, h2, h3, h4, h5, h6, h7, h8, h9, h10, h11, h12, h13, h14, h15, h16, h17, h18⟩ :=
    hc
  simp [decode_case, e1, e2, e3, e4, e5, e6, e7, e8, e9, e10, e11, e12, e13, e14, e15,
    e16, e17, h1, h2, h3, h4, h5, h6, h7, h8, h9, h10, h11, h12, h13, h14, h15, h16, h17, h18]

theorem decode_case_ok (cfg : Config) (w : World) (c : Int) (a : String)
    (sdp sdp1 : gfs2_sbd) (cont : Bool)
    (h : (decode_case cfg w c a sdp).out = .ok (sdp1, cont)) :
    cont = decide (c ≠ EOF) ∧
    sdp1.device_name.toList =
      sdp.device_name.toList ++ (if c = 1 ∧ a ≠ "gfs2" then [a] else []) ∧
    sdp1.lockproto = (if c = chr 'p' then a else sdp.lockproto) ∧
    sdp1.locktable = (if c = chr 't' then a else sdp.locktable) ∧
    (c = chr 'p' ∨ c = chr 't' → strlen a < cfg.GFS2_LOCKNAME_LEN) := by
  by_cases hc : c ∈ case_codes
  · obtain ⟨e1, e2, e3, e4, e5, e6, e7, e8, e9, e10, e11, e12, e13, e14, e15, e16, e17⟩ :=
      chr_values
    simp only [case_codes, List.mem_cons, List.mem_singleton, List.not_mem_nil, or_false] at hc
    rcases hc with k | k | k | k | k | k | k | k | k | k | k | k | k | k | k | k | k | k <;>
      subst k <;>
      simp [decode_case, e1, e2, e3, e4, e5, e6, e7, e8, e9, e10, e11, e12, e13, e14, e15,
        e16, e17, bind_eq, bind_out_ok, check_out_ok, die_out, exit_out, pure_out] at h ⊢
    all_goals first
      | (obtain ⟨rfl, rfl⟩ := h; simp)
      | (obtain ⟨h0, rfl, rfl⟩ := h; simp [h0])
      | skip
    by_cases hg : a = "gfs2"
    · simp [hg, pure_out] at h ⊢
      obtain ⟨rfl, rfl⟩ := h
      simp
    · simp [hg, pure_out, bind_out_ok, check_out_ok] at h ⊢
      obtain ⟨h0, rfl, rfl⟩ := h
      cases hd : sdp.device_name <;> simp [hd] at h0 ⊢
  · rw [decode_case_default cfg w c a sdp hc] at h
    simp [die_out] at h

theorem decode_case_stop (cfg : Config) (w : World) (c : Int) (a : String)
    (sdp : gfs2_sbd) (s : Stop) (h : (decode_case cfg w c a sdp).out = .stop s) :
    (∃ fmt, s = .die fmt) ∨ s = .exit EXIT_FAILURE ∨
      (s = .exit EXIT_SUCCESS ∧ (c = chr 'h' ∨ c = chr 'V')) := by
  by_cases hc : c ∈ case_codes
  · obtain ⟨e1, e2, e3, e4, e5, e6, e7, e8, e9, e10, e11, e12, e13, e14, e15, e16, e17⟩ :=
      chr_values
    simp only [case_codes, List.mem_cons, List.mem_singleton, List.not_mem_nil, or_false] at hc
    rcases hc with k | k | k | k | k | k | k | k | k | k | k | k | k | k | k | k | k | k <;>
      subst k <;>
      simp [decode_case, e1, e2, e3, e4, e5, e6, e7, e8, e9, e10, e11, e12, e13, e14, e15,
        e16, e17, bind_eq, bind_out_stop, die_out, exit_out, pure_out, printf_out,
        eprintf_out, print_usage_out, check_out_stop] at h ⊢
    all_goals first
      | (subst h; simp)
      | (obtain ⟨_, rfl⟩ := h; simp)
      | skip
    by_cases hg : a = "gfs2"
    · simp [hg, pure_out] at h
    · simp [hg, pure_out, bind_out_stop, check_out_stop] at h
      obtain ⟨_, rfl⟩ := h
      simp
  · rw [decode_case_default cfg w c a sdp hc] at h
    simp [die_out] at h
    exact Or.inl ⟨_, h.symm⟩

theorem silent_bind {α β : Type} (m : Run α) (f : α → Run β) (hm : silent m)
    (hf : ∀ a, silent (f a)) : silent (Run.bind m f) :=
  bind_trace_all _ m f hm hf

theorem silent_ite {α : Type} (c : Prop) [Decidable c] (t e : Run α) (ht : silent t)
    (he : silent e) : silent (if c then t else e) := by
  by_cases h : c <;> simp [h, ht, he]

theorem silent_pure {α : Type} (a : α) : silent (pure a : Run α) := by
  intro x hx; simp [pure_trace] at hx

theorem silent_die {α : Type} (fmt : String) : silent (die fmt : Run α) := by
  intro x hx; simp [die] at hx

theorem silent_exit {α : Type} (n : Nat) : silent (exit n : Run α) := by
  intro x hx; simp [exit] at hx

theorem silent_printf (fmt : String) : silent (printf fmt) := by
  intro x hx; simp [printf] at hx; subst hx; rfl

theorem silent_eprintf (fmt : String) : silent (eprintf fmt) := by
  intro x hx; simp [eprintf] at hx; subst hx; rfl

theorem silent_print_usage : silent print_usage := by
  unfold silent; decide

theorem silent_print_arguments : silent print_arguments := by
  unfold silent; decide

theorem silent_decode_case (cfg : Config) (w : World) (c : Int) (a : String)
    (sdp : gfs2_sbd) : silent (decode_case cfg w c a sdp) := by
  unfold decode_case
  simp only [bind_eq]
  repeat' first
    | exact silent_print_usage
    | exact silent_pure _
    | exact silent_die _
    | exact silent_exit _
    | exact silent_printf _
    | exact silent_eprintf _
    | refine silent_ite _ _ _ ?_ ?_
    | refine silent_bind _ _ ?_ (fun _ => ?_)

theorem silent_decode_loop (cfg : Config) (w : World) (evs : List (Int × String)) :
    ∀ sdp, silent (decode_loop cfg w evs sdp) := by
  induction evs with
  | nil => intro sdp; exact silent_pure sdp
  | cons e evs ih =>
    intro sdp
    obtain ⟨c, a⟩ := e
    unfold decode_loop
    simp only [bind_eq]
    apply silent_bind _ _ (silent_decode_case cfg w c a sdp)
    rintro ⟨sdp1, cont⟩
    exact silent_ite _ _ _ (ih sdp1) (silent_pure sdp1)

theorem silent_decode_arguments (cfg : Config) (w : World) (cmd : CommandLine)
    (sdp : gfs2_sbd) : silent (decode_arguments cfg w cmd sdp) := by
  unfold decode_arguments
  simp only [bind_eq]
  apply silent_bind _ _ (silent_decode_loop cfg w _ _)
  intro sdp1
  split
  all_goals repeat' first
    | exact silent_print_arguments
    | exact silent_pure _
    | exact silent_die _
    | refine silent_ite _ _ _ ?_ ?_
    | refine silent_bind _ _ ?_ (fun _ => ?_)

theorem verify_arguments_trace (w : World) (sdp : gfs2_sbd) :
    ∀ x ∈ (verify_arguments w sdp).trace, x = .call .test_locking := by
  have hc : ∀ (c : Prop) [Decidable c] (fmt : String),
      ∀ x ∈ (if c then (die fmt : Run Unit) else pure ()).trace, x = .call .test_locking := by
    intro c _ fmt x hx
    by_cases h : c <;> simp [h, die, pure_trace] at hx
  unfold verify_arguments
  simp only [bind_eq]
  refine bind_trace_all _ _ _ ?_ (fun _ => ?_)
  · intro x hx
    by_cases h : (!sdp.expert) = true <;> simp [h, test_locking, pure_trace] at hx
    exact hx
  refine bind_trace_all _ _ _ (hc _ _) (fun _ => ?_)
  refine bind_trace_all _ _ _ ?_ (fun _ => ?_)
  · by_cases h : sdp.expert = true
    · rw [if_pos h]; exact hc _ _
    · rw [if_neg h]; exact hc _ _
  refine bind_trace_all _ _ _ (hc _ _) (fun _ => ?_)
  refine bind_trace_all _ _ _ (hc _ _) (fun _ => ?_)
  refine bind_trace_all _ _ _ (hc _ _) (fun _ => ?_)
  exact hc _ _

theorem values_of_cons (k c : Int) (a : String) (evs : List (Int × String)) :
    values_of k ((c, a) :: evs) =
      if c = EOF then [] else if c = k then a :: values_of k evs else values_of k evs := by
  unfold values_of scanned
  by_cases h1 : c = EOF
  · simp [h1]
  · by_cases h2 : c = k
    · subst h2
      simp [h1, List.takeWhile_cons, List.filter_cons]
    · simp [h1, h2, List.takeWhile_cons, List.filter_cons]

theorem scanned_cons (c : Int) (a : String) (evs : List (Int × String)) :
    scanned ((c, a) :: evs) = if c = EOF then [] else (c, a) :: scanned evs := by
  unfold scanned
  by_cases h1 : c = EOF <;> simp [h1, List.takeWhile_cons]

theorem decode_loop_cons (cfg : Config) (w : World) (c : Int) (a : String)
    (evs : List (Int × String)) (sdp : gfs2_sbd) :
    decode_loop cfg w ((c, a) :: evs) sdp =
      Run.bind (decode_case cfg w c a sdp)
        (fun r => if r.2 then decode_loop cfg w evs r.1 else pure r.1) := by
  rw [decode_loop]
  rfl

theorem decode_loop_ok (cfg : Config) (w : World) (evs : List (Int × String)) :
    ∀ sdp sdp1, (decode_loop cfg w evs sdp).out = .ok sdp1 →
      sdp1.device_name.toList =
        sdp.device_name.toList ++ (values_of 1 evs).filter (fun a => a ≠ "gfs2") ∧
      sdp1.lockproto = (values_of (chr 'p') evs).getLastD sdp.lockproto ∧
      sdp1.locktable = (values_of (chr 't') evs).getLastD sdp.locktable ∧
      (∀ e ∈ scanned evs, e.1 = chr 'p' ∨ e.1 = chr 't' →
        strlen e.2 < cfg.GFS2_LOCKNAME_LEN) := by
  induction evs with
  | nil =>
    intro sdp sdp1 h
    simp only [decode_loop, pure_out, Outcome.ok.injEq] at h
    subst h
    simp [values_of, scanned]
  | cons e evs ih =>
    intro sdp sdp1 h
    obtain ⟨c, a⟩ := e
    rw [decode_loop_cons, bind_out_ok] at h
    obtain ⟨⟨sdp2, cont⟩, h1, h2⟩ := h
    obtain ⟨k1, k2, k3, k4, k5⟩ := decode_case_ok cfg w c a sdp sdp2 cont h1
    simp only at h2
    have hEOF1 : EOF ≠ 1 := by decide
    have hEOFp : EOF ≠ chr 'p' := by decide
    have hEOFt : EOF ≠ chr 't' := by decide
    by_cases hc : c = EOF
    · subst hc
      simp only [ne_eq, not_true_eq_false, decide_False] at k1
      subst k1
      simp only [Bool.false_eq_true, if_false, pure_out, Outcome.ok.injEq] at h2
      subst h2
      simp only [values_of_cons, scanned_cons, if_true]
      simp [k2, k3, k4, hEOF1, hEOFp, hEOFt]
    · simp only [ne_eq, hc, not_false_eq_true, decide_True] at k1
      subst k1
      simp only [if_true] at h2
      obtain ⟨i1, i2, i3, i4⟩ := ih sdp2 sdp1 h2
      simp only [values_of_cons, scanned_cons, if_neg hc]
      refine ⟨?_, ?_, ?_, ?_⟩
      · rw [i1, k2]
        by_cases g1 : c = 1 <;> by_cases g2 : a = "gfs2" <;> simp [g1, g2]
      · rw [i2, k3]
        by_cases g : c = chr 'p'
        · rw [if_pos g, if_pos g, List.getLastD_cons]
        · rw [if_neg g, if_neg g]
      · rw [i3, k4]
        by_cases g : c = chr 't'
        · rw [if_pos g, if_pos g, List.getLastD_cons]
        · rw [if_neg g, if_neg g]
      · intro e he hpt
        simp only [List.mem_cons] at he
        rcases he with he | he
        · subst he
          exact k5 hpt
        · exact i4 e he hpt

theorem decode_loop_stop (cfg : Config) (w : World) (evs : List (Int × String)) :
    ∀ sdp s, (decode_loop cfg w evs sdp).out = .stop s →
      (∃ fmt, s = .die fmt) ∨ s = .exit EXIT_FAILURE ∨
        (s = .exit EXIT_SUCCESS ∧ ∃ e ∈ evs, e.1 = chr 'h' ∨ e.1 = chr 'V') := by
  induction evs with
  | nil =>
    intro sdp s h
    simp [decode_loop, pure_out] at h
  | cons e evs ih =>
    intro sdp s h
    obtain ⟨c, a⟩ := e
    rw [decode_loop_cons, bind_out_stop] at h
    rcases h with h | ⟨⟨sdp2, cont⟩, _, h2⟩
    · rcases decode_case_stop cfg w c a sdp s h with k | k | ⟨k, k0⟩
      · exact Or.inl k
      · exact Or.inr (Or.inl k)
      · exact Or.inr (Or.inr ⟨k, (c, a), List.mem_cons_self _ _, k0⟩)
    · cases cont with
      | false => simp [pure_out] at h2
      | true =>
        simp only [if_true] at h2
        rcases ih sdp2 s h2 with k | k | ⟨k, e, he, k0⟩
        · exact Or.inl k
        · exact Or.inr (Or.inl k)
        · exact Or.inr (Or.inr ⟨k, e, List.mem_cons_of_mem _ he, k0⟩)

theorem print_arguments_out : print_arguments.out = .ok () := by decide

theorem debug_print_out (c : Prop) [Decidable c] :
    (if c then print_arguments else pure ()).out = .ok () := by
  by_cases h : c <;> simp [h, print_arguments_out, pure_out]

theorem decode_arguments_ok (cfg : Config) (w : World) (cmd : CommandLine)
    (sdp0 sdp : gfs2_sbd) (h : (decode_arguments cfg w cmd sdp0).out = .ok sdp) :
    (∃ d, device_words cmd = [d] ∧ sdp.device_name = some d) ∧
    sdp.lockproto = (values_of (chr 'p') cmd.events).getLastD sdp0.lockproto ∧
    sdp.locktable = (values_of (chr 't') cmd.events).getLastD sdp0.locktable ∧
    (∀ e ∈ scanned cmd.events, e.1 = chr 'p' ∨ e.1 = chr 't' →
      strlen e.2 < cfg.GFS2_LOCKNAME_LEN) := by
  unfold decode_arguments at h
  simp only [bind_eq, bind_out_ok] at h
  obtain ⟨sdp1, h1, h2⟩ := h
  obtain ⟨i1, i2, i3, i4⟩ := decode_loop_ok cfg w cmd.events _ sdp1 h1
  simp only [Option.toList, List.nil_append] at i1
  clear h1
  simp only at i2 i3
  cases hd : sdp1.device_name with
  | none =>
    cases hr : cmd.rest with
    | nil => simp [hd, hr, check_out_ok, debug_print_out, pure_out, die_out] at h2
    | cons arg rest =>
      cases rest with
      | cons _ _ => simp [hd, hr, check_out_ok, debug_print_out, pure_out, die_out] at h2
      | nil =>
        simp [hd, hr, check_out_ok, debug_print_out, pure_out, die_out] at h2
        subst h2
        rw [hd] at i1
        simp only at i1
        refine ⟨⟨arg, ?_, rfl⟩, i2, i3, i4⟩
        unfold device_words
        rw [← i1, hr]
        rfl
  | some d =>
    cases hr : cmd.rest with
    | cons _ _ => simp [hd, hr, check_out_ok, debug_print_out, pure_out, die_out] at h2
    | nil =>
      simp [hd, hr, check_out_ok, debug_print_out, pure_out, die_out] at h2
      subst h2
      rw [hd] at i1
      simp only at i1
      refine ⟨⟨d, ?_, hd⟩, i2, i3, i4⟩
      unfold device_words
      rw [← i1, hr]
      rfl

theorem decode_arguments_stop (cfg : Config) (w : World) (cmd : CommandLine)
    (sdp0 : gfs2_sbd) (s : Stop) (h : (decode_arguments cfg w cmd sdp0).out = .stop s) :
    (∃ fmt, s = .die fmt) ∨ s = .exit EXIT_FAILURE ∨
      (s = .exit EXIT_SUCCESS ∧ ∃ e ∈ cmd.events, e.1 = chr 'h' ∨ e.1 = chr 'V') := by
  unfold decode_arguments at h
  simp only [bind_eq, bind_out_stop, check_out_stop, debug_print_out, pure_out,
    reduceCtorEq, and_false, exists_false, or_false, exists_const] at h
  rcases h with h | ⟨sdp1, _, ⟨_, h⟩ | ⟨_, _, _, h⟩⟩
  · exact decode_loop_stop cfg w cmd.events _ s h
  · exact Or.inl ⟨_, h⟩
  · exact Or.inl ⟨_, h⟩

/-! ## `main_mkfs` as a sequence of stages -/

theorem bind_assoc {α β γ : Type} (m : Run α) (f : α → Run β) (g : β → Run γ) :
    Run.bind (Run.bind m f) g = Run.bind m (fun a => Run.bind (f a) g) := by
  unfold Run.bind
  cases h : m.out with
  | ok a =>
    simp only
    cases h2 : (f a).out <;> simp
  | stop s => simp

theorem pure_bind {α β : Type} (a : α) (f : α → Run β) : Run.bind (pure a) f = f a := by
  unfold Run.bind
  simp [pure_eq]

theorem main_mkfs_eq (cfg : Config) (w : World) (cmd : CommandLine) :
    main_mkfs cfg w cmd =
      Run.bind (decode_arguments cfg w cmd (init_sbd cfg)) (fun sdp =>
        Run.bind (verify_arguments w sdp) (fun _ =>
          Run.bind (open_and_confirm w sdp) (fun sdp1 =>
            Run.bind (lib_seq w construction_calls) (fun _ => release_device w sdp1)))) := by
  unfold main_mkfs open_and_confirm release_device construction_calls
  simp only [lib_seq, bind_eq, bind_assoc, pure_bind]

theorem main_mkfs_stages (cfg : Config) (w : World) (cmd : CommandLine) :
    main_mkfs cfg w cmd =
      Run.bind (decode_arguments cfg w cmd (init_sbd cfg)) (fun sdp =>
        Run.bind (verify_arguments w sdp) (fun _ => format_device w sdp)) := by
  rw [main_mkfs_eq]
  rfl

theorem lib_seq_cases (w : World) (cs : List Call) :
    ((lib_seq w cs).out = .ok () ∧ (lib_seq w cs).trace = cs.map .call) ∨
    (∃ pre c post, cs = pre ++ c :: post ∧
      (lib_seq w cs).trace = (pre ++ [c]).map .call ∧ (lib_seq w cs).out = .stop (.lib c)) := by
  induction cs with
  | nil => left; exact ⟨rfl, rfl⟩
  | cons c cs ih =>
    rw [lib_seq, bind_eq]
    by_cases hr : w.returns c = true
    · have e : Run.bind (lib w c) (fun _ => lib_seq w cs) =
          ⟨.call c :: (lib_seq w cs).trace, (lib_seq w cs).out⟩ := by
        simp [Run.bind, lib, hr]
      rw [e]
      rcases ih with ⟨h1, h2⟩ | ⟨pre, c1, post, h1, h2, h3⟩
      · left; exact ⟨h1, by simp [h2]⟩
      · right; exact ⟨c :: pre, c1, post, by simp [h1], by simp [h2], h3⟩
    · have e : Run.bind (lib w c) (fun _ => lib_seq w cs) = ⟨[.call c], .stop (.lib c)⟩ := by
        simp [Run.bind, lib, hr]
      rw [e]
      right; exact ⟨[], c, cs, rfl, rfl, rfl⟩

theorem print_summary_out (sdp : gfs2_sbd) : (print_summary sdp).out = .ok () := by
  unfold print_summary
  cases sdp.expert <;> cases sdp.debug <;> rfl

theorem print_results_out (sdp : gfs2_sbd) : (print_results sdp).out = .ok () := by
  unfold print_results
  cases hd : sdp.debug <;> cases hq : sdp.quiet <;>
    simp [bind_eq, Run.bind, printf, print_summary_out, pure_out]

theorem silent_print_results (sdp : gfs2_sbd) : silent (print_results sdp) := by
  unfold print_results print_summary
  simp only [bind_eq]
  repeat' first
    | exact silent_pure _
    | exact silent_printf _
    | refine silent_ite _ _ _ ?_ ?_
    | refine silent_bind _ _ ?_ (fun _ => ?_)

theorem release_device_eq (w : World) (sdp : gfs2_sbd) :
    release_device w sdp =
      if w.fsync sdp.device_fd ≠ 0 then
        ⟨[.call .fsync], .stop (.die "can't fsync device (%d): %s\n")⟩
      else if w.close sdp.device_fd ≠ 0 then
        ⟨[.call .fsync, .call .close], .stop (.die "error closing device (%d): %s\n")⟩
      else
        ⟨[.call .fsync, .call .close] ++ (print_results sdp).trace, .ok ()⟩ := by
  unfold release_device
  by_cases h1 : w.fsync sdp.device_fd = 0 <;> by_cases h2 : w.close sdp.device_fd = 0 <;>
    simp [bind_eq, Run.bind, sys, die, pure_eq, h1, h2, print_results_out]

theorem are_you_sure_eq (w : World) (sdp : gfs2_sbd) :
    are_you_sure w sdp =
      if (w.identify_device sdp.device_fd).1 < 0 then
        ⟨[.call .identify_device],
          .stop (.die "error identifying the contents of %s: %s\n")⟩
      else
        ⟨[.call .identify_device, .printf "This will destroy any data on %s.\n"] ++
          (if (w.identify_device sdp.device_fd).1 = 0 then
            [.printf "  It appears to contain a %s.\n"] else []) ++
          [.printf "\nAre you sure you want to proceed? [y/n] ", .call .fgets] ++
          (if (fgets w.input 32 w.stdin).2.headD (Char.ofNat 0) = 'y' then
            [.printf "\n"] else []),
         if (fgets w.input 32 w.stdin).2.headD (Char.ofNat 0) = 'y' then .ok ()
          else .stop (.die "aborted\n")⟩ := by
  unfold are_you_sure
  by_cases h1 : (w.identify_device sdp.device_fd).1 < 0
  · simp [bind_eq, Run.bind, sys, die, pure_eq, h1]
  · by_cases h2 : (w.identify_device sdp.device_fd).1 = 0 <;>
      simp [bind_eq, Run.bind, sys, die, pure_eq, printf, h1, h2] <;>
      split <;> simp

theorem sys_bind {α β : Type} (c : Call) (r : α) (f : α → Run β) :
    Run.bind (sys c r) f = ⟨.call c :: (f r).trace, (f r).out⟩ := by
  simp [Run.bind, sys]

theorem check_bind_pos {β : Type} (c : Prop) [Decidable c] (fmt : String)
    (f : Unit → Run β) (h : c) :
    Run.bind (if c then (die fmt : Run Unit) else pure ()) f = ⟨[], .stop (.die fmt)⟩ := by
  simp [Run.bind, die, h]

theorem check_bind_neg {β : Type} (c : Prop) [Decidable c] (fmt : String)
    (f : Unit → Run β) (h : ¬ c) :
    Run.bind (if c then (die fmt : Run Unit) else pure ()) f = f () := by
  simp [Run.bind, pure_eq, h]

theorem open_and_confirm_fail (w : World) (sdp : gfs2_sbd)
    (h : w.open_device (sdp.device_name.getD "") < 0) :
    open_and_confirm w sdp =
      ⟨[.call .open_device], .stop (.die "can't open device %s: %s\n")⟩ := by
  unfold open_and_confirm
  simp only [bind_eq, sys_bind]
  rw [check_bind_pos _ _ _ h]

theorem open_and_confirm_override (w : World) (sdp : gfs2_sbd)
    (h : 0 ≤ w.open_device (sdp.device_name.getD "")) (ho : sdp.override = true) :
    open_and_confirm w sdp =
      ⟨[.call .open_device],
        .ok { sdp with device_fd := w.open_device (sdp.device_name.getD "") }⟩ := by
  unfold open_and_confirm
  simp only [bind_eq, sys_bind]
  rw [check_bind_neg _ _ _ (not_lt.2 h), if_neg (by simp [ho]), pure_bind]
  rfl

theorem open_and_confirm_gate_ok (w : World) (sdp : gfs2_sbd)
    (h : 0 ≤ w.open_device (sdp.device_name.getD "")) (ho : sdp.override = false)
    (hg : (are_you_sure w
      { sdp with device_fd := w.open_device (sdp.device_name.getD "") }).out = .ok ()) :
    open_and_confirm w sdp =
      ⟨.call .open_device :: (are_you_sure w
          { sdp with device_fd := w.open_device (sdp.device_name.getD "") }).trace,
        .ok { sdp with device_fd := w.open_device (sdp.device_name.getD "") }⟩ := by
  unfold open_and_confirm
  simp only [bind_eq, sys_bind]
  rw [check_bind_neg _ _ _ (not_lt.2 h), if_pos (by simp [ho]), bind_of_ok _ _ _ hg]
  simp [pure_eq]

theorem open_and_confirm_gate_stop (w : World) (sdp : gfs2_sbd) (s : Stop)
    (h : 0 ≤ w.open_device (sdp.device_name.getD "")) (ho : sdp.override = false)
    (hg : (are_you_sure w
      { sdp with device_fd := w.open_device (sdp.device_name.getD "") }).out = .stop s) :
    open_and_confirm w sdp =
      ⟨.call .open_device :: (are_you_sure w
          { sdp with device_fd := w.open_device (sdp.device_name.getD "") }).trace,
        .stop s⟩ := by
  unfold open_and_confirm
  simp only [bind_eq, sys_bind]
  rw [check_bind_neg _ _ _ (not_lt.2 h), if_pos (by simp [ho]), bind_of_stop _ _ _ hg]

theorem main_mkfs_of_decode_stop (cfg : Config) (w : World) (cmd : CommandLine) (s : Stop)
    (h : (decode_arguments cfg w cmd (init_sbd cfg)).out = .stop s) :
    main_mkfs cfg w cmd = ⟨(decode_arguments cfg w cmd (init_sbd cfg)).trace, .stop s⟩ := by
  rw [main_mkfs_stages, bind_of_stop _ _ _ h]

theorem main_mkfs_of_verify_stop (cfg : Config) (w : World) (cmd : CommandLine)
    (sdp : gfs2_sbd) (s : Stop)
    (hdec : (decode_arguments cfg w cmd (init_sbd cfg)).out = .ok sdp)
    (hver : (verify_arguments w sdp).out = .stop s) :
    main_mkfs cfg w cmd =
      ⟨(decode_arguments cfg w cmd (init_sbd cfg)).trace ++ (verify_arguments w sdp).trace,
        .stop s⟩ := by
  rw [main_mkfs_stages, bind_of_ok _ _ _ hdec, bind_of_stop _ _ _ hver]

theorem main_mkfs_of_verified (cfg : Config) (w : World) (cmd : CommandLine)
    (sdp : gfs2_sbd)
    (hdec : (decode_arguments cfg w cmd (init_sbd cfg)).out = .ok sdp)
    (hver : (verify_arguments w sdp).out = .ok ()) :
    main_mkfs cfg w cmd =
      ⟨(decode_arguments cfg w cmd (init_sbd cfg)).trace ++
        ((verify_arguments w sdp).trace ++ (format_device w sdp).trace),
        (format_device w sdp).out⟩ := by
  rw [main_mkfs_stages, bind_of_ok _ _ _ hdec, bind_of_ok _ _ _ hver]

/-- A predicate on actions that holds of no `printf` and not of the call of
`test_locking` counts the same on the whole run and on its part behind
`verify_arguments`. -/
theorem main_mkfs_filter (cfg : Config) (w : World) (cmd : CommandLine) (sdp : gfs2_sbd)
    (P : Action → Bool) (hP : ∀ x, is_call x = false → P x = false)
    (hT : P (.call .test_locking) = false)
    (hdec : (decode_arguments cfg w cmd (init_sbd cfg)).out = .ok sdp)
    (hver : (verify_arguments w sdp).out = .ok ()) :
    (main_mkfs cfg w cmd).trace.filter P = (format_device w sdp).trace.filter P := by
  rw [main_mkfs_of_verified cfg w cmd sdp hdec hver]
  simp only [List.filter_append]
  have h1 : (decode_arguments cfg w cmd (init_sbd cfg)).trace.filter P = [] := by
    rw [List.filter_eq_nil_iff]
    intro x hx
    rw [hP x (silent_decode_arguments cfg w cmd _ x hx)]
    simp
  have h2 : (verify_arguments w sdp).trace.filter P = [] := by
    rw [List.filter_eq_nil_iff]
    intro x hx
    rw [verify_arguments_trace w sdp x hx, hT]
    simp
  rw [h1, h2]
  rfl

/-! ## The claims about `decode_arguments` -/

/-- C4 (as stated, refuted): `gfs2_mkfs gfs2 /dev/sdb` has two positional
arguments and is decoded successfully, with `/dev/sdb` as the device; and
`gfs2_mkfs -h` has no positional argument and ends in `exit(EXIT_SUCCESS)`, not
in a fatal error. -/
theorem C4_counterexample :
    (positional_arguments gfs2_word_command).length = 2 ∧
    (decode_arguments sample_config sample_world gfs2_word_command
        (init_sbd sample_config)).out =
      .ok { init_sbd sample_config with device_name := some "/dev/sdb" } ∧
    (positional_arguments help_command).length = 0 ∧
    (decode_arguments sample_config sample_world help_command
        (init_sbd sample_config)).out = .stop (.exit EXIT_SUCCESS) := by
  decide

/-- C4 (amended): `decode_arguments` succeeds only when exactly one device word
is supplied, a positional argument other than a word `gfs2` met in order (such
words are skipped), and that word becomes the device path. Every command line
with no device word, and every command line with two or more, ends without
success: in a fatal error (`die` or `exit(EXIT_FAILURE)`), or in
`exit(EXIT_SUCCESS)` when `-h` or `-V` is among its options. -/
theorem C4_exactly_one_device_word (cfg : Config) (w : World) (cmd : CommandLine)
    (sdp0 : gfs2_sbd) :
    (∀ sdp, (decode_arguments cfg w cmd sdp0).out = .ok sdp →
      ∃ d, device_words cmd = [d] ∧ sdp.device_name = some d) ∧
    ((device_words cmd).length ≠ 1 →
      ∃ s, (decode_arguments cfg w cmd sdp0).out = .stop s ∧
        ((∃ fmt, s = .die fmt) ∨ s = .exit EXIT_FAILURE ∨
          (s = .exit EXIT_SUCCESS ∧ ∃ e ∈ cmd.events, e.1 = chr 'h' ∨ e.1 = chr 'V'))) := by
  refine ⟨fun sdp h => (decode_arguments_ok cfg w cmd sdp0 sdp h).1, ?_⟩
  intro hlen
  cases h : (decode_arguments cfg w cmd sdp0).out with
  | ok sdp =>
    obtain ⟨d, hd, _⟩ := (decode_arguments_ok cfg w cmd sdp0 sdp h).1
    rw [hd] at hlen
    exact absurd rfl hlen
  | stop s => exact ⟨s, rfl, decode_arguments_stop cfg w cmd sdp0 s h⟩

theorem C4_exactly_one_device_word_witness :
    (decode_arguments sample_config sample_world sample_command
        (init_sbd sample_config)).out = .ok sample_sbd ∧
    ∃ d, device_words sample_command = [d] ∧ sample_sbd.device_name = some d :=
  ⟨by decide,
    (C4_exactly_one_device_word sample_config sample_world sample_command
      (init_sbd sample_config)).1 sample_sbd (by decide)⟩

/-- C5: when `decode_arguments` or `verify_arguments` fails, `main_mkfs` ends
before the device is opened: the run stops, and its trace holds no device
action (no `open`, `identify_device`, geometry probe, builder, `bsync`, `fsync`
or `close`). -/
theorem C5_validation_failure_touches_nothing (cfg : Config) (w : World)
    (cmd : CommandLine)
    (h : ∀ sdp, (decode_arguments cfg w cmd (init_sbd cfg)).out = .ok sdp →
      (verify_arguments w sdp).out ≠ .ok ()) :
    (main_mkfs cfg w cmd).trace.filter device_action = [] ∧
    Action.call .open_device ∉ (main_mkfs cfg w cmd).trace ∧
    ∃ s, (main_mkfs cfg w cmd).out = .stop s := by
  have key : (∀ x ∈ (main_mkfs cfg w cmd).trace, device_action x = false) ∧
      ∃ s, (main_mkfs cfg w cmd).out = .stop s := by
    cases hd : (decode_arguments cfg w cmd (init_sbd cfg)).out with
    | stop s =>
      rw [main_mkfs_of_decode_stop cfg w cmd s hd]
      refine ⟨?_, s, rfl⟩
      intro x hx
      have := silent_decode_arguments cfg w cmd _ x hx
      cases x <;> simp_all [is_call, device_action]
    | ok sdp =>
      cases hv : (verify_arguments w sdp).out with
      | ok u => exact absurd hv (h sdp hd)
      | stop s =>
        rw [main_mkfs_of_verify_stop cfg w cmd sdp s hd hv]
        refine ⟨?_, s, rfl⟩
        intro x hx
        simp only [List.mem_append] at hx
        rcases hx with hx | hx
        · have := silent_decode_arguments cfg w cmd _ x hx
          cases x <;> simp_all [is_call, device_action]
        · rw [verify_arguments_trace w sdp x hx]
          rfl
  refine ⟨?_, ?_, key.2⟩
  · rw [List.filter_eq_nil_iff]
    intro x hx
    rw [key.1 x hx]
    simp
  · intro hx
    have := key.1 _ hx
    simp [device_action] at this

theorem C5_validation_failure_touches_nothing_witness :
    (∀ sdp, (decode_arguments sample_config sample_world bad_block_command
        (init_sbd sample_config)).out = .ok sdp →
      (verify_arguments sample_world sdp).out ≠ .ok ()) ∧
    (main_mkfs sample_config sample_world bad_block_command).trace.filter device_action = [] :=
  have hyp : ∀ sdp, (decode_arguments sample_config sample_world bad_block_command
      (init_sbd sample_config)).out = .ok sdp →
      (verify_arguments sample_world sdp).out ≠ .ok () := by
    intro sdp hd
    have e : (decode_arguments sample_config sample_world bad_block_command
        (init_sbd sample_config)).out =
        .ok { sample_sbd with bsize := 1000, lockproto := "" } := by decide
    rw [e] at hd
    cases hd
    rw [Ne, verify_arguments_ok_iff]
    rintro ⟨_, hb, _⟩
    revert hb
    decide
  ⟨hyp, (C5_validation_failure_touches_nothing sample_config sample_world
    bad_block_command hyp).1⟩

theorem getLastD_mem_or (l : List String) :
    ∀ d, l.getLastD d = d ∨ l.getLastD d ∈ l := by
  induction l with
  | nil => intro d; left; rfl
  | cons a l ih =>
    intro d
    rw [List.getLastD_cons]
    rcases ih a with h | h
    · right; rw [h]; exact List.mem_cons_self _ _
    · right; exact List.mem_cons_of_mem _ h

theorem mem_values_of (c : Int) (a : String) (evs : List (Int × String))
    (h : a ∈ values_of c evs) : ∃ e ∈ scanned evs, e.1 = c ∧ e.2 = a := by
  unfold values_of at h
  simp only [List.mem_map, List.mem_filter, decide_eq_true_eq] at h
  obtain ⟨e, ⟨h1, h2⟩, h3⟩ := h
  exact ⟨e, h1, h2, h3⟩

theorem decode_case_lockproto (cfg : Config) (w : World) (s : String) (sdp : gfs2_sbd) :
    decode_case cfg w (chr 'p') s sdp =
      if strlen s < cfg.GFS2_LOCKNAME_LEN then
        ⟨[], .ok ({ sdp with lockproto := s }, true)⟩
      else ⟨[], .stop (.die "lock protocol name %s is too long\n")⟩ := by
  obtain ⟨e1, e2, e3, e4, e5, e6, e7, e8, e9, e10, e11, e12, e13, e14, e15, e16, e17⟩ :=
    chr_values
  by_cases h : strlen s < cfg.GFS2_LOCKNAME_LEN
  · simp [decode_case, e1, e2, e3, e4, e5, e6, e7, e8, bind_eq, Run.bind, die, pure_eq, h,
      not_le.2 h]
  · simp [decode_case, e1, e2, e3, e4, e5, e6, e7, e8, bind_eq, Run.bind, die, pure_eq, h,
      not_lt.1 h]

theorem decode_case_locktable (cfg : Config) (w : World) (s : String) (sdp : gfs2_sbd) :
    decode_case cfg w (chr 't') s sdp =
      if strlen s < cfg.GFS2_LOCKNAME_LEN then
        ⟨[], .ok ({ sdp with locktable := s }, true)⟩
      else ⟨[], .stop (.die "lock table name %s is too long\n")⟩ := by
  obtain ⟨e1, e2, e3, e4, e5, e6, e7, e8, e9, e10, e11, e12, e13, e14, e15, e16, e17⟩ :=
    chr_values
  by_cases h : strlen s < cfg.GFS2_LOCKNAME_LEN
  · simp [decode_case, e1, e2, e3, e4, e5, e6, e7, e8, e9, e10, e11, bind_eq, Run.bind, die,
      pure_eq, h, not_le.2 h]
  · simp [decode_case, e1, e2, e3, e4, e5, e6, e7, e8, e9, e10, e11, bind_eq, Run.bind, die,
      pure_eq, h, not_lt.1 h]

/-- C10: a value `s` of `-p` (of `-t`) is accepted and stored unchanged as the
protocol (table) name when `strlen s < GFS2_LOCKNAME_LEN` and is rejected by
`die` otherwise. After every successful `decode_arguments` on the structure
`main_mkfs` prepares, the stored names are the last values given (empty when
none was), every value given was shorter than `GFS2_LOCKNAME_LEN`, and so are
both stored names. A command line with a value of `GFS2_LOCKNAME_LEN` bytes or
more stops `main_mkfs` inside `decode_arguments`: the run is the run of
`decode_arguments`, and `test_locking` (the first action of
`verify_arguments`) is not reached. -/
theorem C10_lock_name_length (cfg : Config) (w : World)
    (hlen : 0 < cfg.GFS2_LOCKNAME_LEN) :
    (∀ s sdp, strlen s < cfg.GFS2_LOCKNAME_LEN →
      decode_case cfg w (chr 'p') s sdp = ⟨[], .ok ({ sdp with lockproto := s }, true)⟩ ∧
      decode_case cfg w (chr 't') s sdp = ⟨[], .ok ({ sdp with locktable := s }, true)⟩) ∧
    (∀ s sdp, cfg.GFS2_LOCKNAME_LEN ≤ strlen s →
      decode_case cfg w (chr 'p') s sdp =
        ⟨[], .stop (.die "lock protocol name %s is too long\n")⟩ ∧
      decode_case cfg w (chr 't') s sdp =
        ⟨[], .stop (.die "lock table name %s is too long\n")⟩) ∧
    (∀ cmd sdp, (decode_arguments cfg w cmd (init_sbd cfg)).out = .ok sdp →
      sdp.lockproto = (values_of (chr 'p') cmd.events).getLastD "" ∧
      sdp.locktable = (values_of (chr 't') cmd.events).getLastD "" ∧
      (∀ e ∈ scanned cmd.events, e.1 = chr 'p' ∨ e.1 = chr 't' →
        strlen e.2 < cfg.GFS2_LOCKNAME_LEN) ∧
      strlen sdp.lockproto < cfg.GFS2_LOCKNAME_LEN ∧
      strlen sdp.locktable < cfg.GFS2_LOCKNAME_LEN) ∧
    (∀ cmd, (∃ e ∈ scanned cmd.events, (e.1 = chr 'p' ∨ e.1 = chr 't') ∧
        cfg.GFS2_LOCKNAME_LEN ≤ strlen e.2) →
      (∃ s, (main_mkfs cfg w cmd).out = .stop s) ∧
      (main_mkfs cfg w cmd).trace = (decode_arguments cfg w cmd (init_sbd cfg)).trace ∧
      Action.call .test_locking ∉ (main_mkfs cfg w cmd).trace) := by
  refine ⟨?_, ?_, ?_, ?_⟩
  · intro s sdp h
    rw [decode_case_lockproto, decode_case_locktable, if_pos h, if_pos h]
    exact ⟨rfl, rfl⟩
  · intro s sdp h
    rw [decode_case_lockproto, decode_case_locktable, if_neg (not_lt.2 h),
      if_neg (not_lt.2 h)]
    exact ⟨rfl, rfl⟩
  · intro cmd sdp h
    obtain ⟨_, h2, h3, h4⟩ := decode_arguments_ok cfg w cmd _ sdp h
    have h0 : strlen "" = 0 := by decide
    refine ⟨h2, h3, h4, ?_, ?_⟩
    · rw [h2]
      rcases getLastD_mem_or (values_of (chr 'p') cmd.events) "" with k | k
      · rw [show (init_sbd cfg).lockproto = "" from rfl, k, h0]; exact hlen
      · obtain ⟨e, he, k1, k2⟩ := mem_values_of _ _ _ k
        rw [show (init_sbd cfg).lockproto = "" from rfl, ← k2]
        exact h4 e he (Or.inl k1)
    · rw [h3]
      rcases getLastD_mem_or (values_of (chr 't') cmd.events) "" with k | k
      · rw [show (init_sbd cfg).locktable = "" from rfl, k, h0]; exact hlen
      · obtain ⟨e, he, k1, k2⟩ := mem_values_of _ _ _ k
        rw [show (init_sbd cfg).locktable = "" from rfl, ← k2]
        exact h4 e he (Or.inr k1)
  · rintro cmd ⟨e, he, hpt, hlong⟩
    cases hd : (decode_arguments cfg w cmd (init_sbd cfg)).out with
    | ok sdp =>
      have := (decode_arguments_ok cfg w cmd _ sdp hd).2.2.2 e he hpt
      omega
    | stop s =>
      rw [main_mkfs_of_decode_stop cfg w cmd s hd]
      refine ⟨⟨s, rfl⟩, rfl, ?_⟩
      intro hx
      have := silent_decode_arguments cfg w cmd _ _ hx
      simp [is_call] at this

theorem C10_lock_name_length_witness :
    0 < sample_config.GFS2_LOCKNAME_LEN ∧
    (∃ s, (main_mkfs sample_config sample_world long_name_command).out = .stop s) ∧
    (decode_arguments sample_config sample_world sample_command
        (init_sbd sample_config)).out = .ok sample_sbd ∧
    strlen sample_sbd.lockproto < sample_config.GFS2_LOCKNAME_LEN :=
  ⟨by decide,
    ((C10_lock_name_length sample_config sample_world (by decide)).2.2.2 long_name_command
      ⟨(chr 'p', String.mk (List.replicate 64 'a')), by decide, by decide⟩).1,
    by decide,
    ((C10_lock_name_length sample_config sample_world (by decide)).2.2.1 sample_command
      sample_sbd (by decide)).2.2.2.1⟩

/-! ## The run behind `verify_arguments` -/

theorem fgets_head (buf : List Char) (c : Char) (rest : List Char) (d : Char) :
    (fgets buf 32 (c :: rest)).2.headD d = c := by
  unfold fgets
  simp only [read_line]
  by_cases h : c = '\n' <;> simp [h]

theorem answer_of_line (w : World) (c : Char) (rest : List Char) (h : w.stdin = c :: rest) :
    answer w = c := by
  unfold answer
  rw [h, fgets_head]

theorem answer_of_eof (w : World) (h : w.stdin = []) :
    answer w = w.input.headD (Char.ofNat 0) := by
  unfold answer
  rw [h]
  rfl

theorem are_you_sure_ident_fail (w : World) (sdp : gfs2_sbd)
    (h : (w.identify_device sdp.device_fd).1 < 0) :
    are_you_sure w sdp =
      ⟨[.call .identify_device],
        .stop (.die "error identifying the contents of %s: %s\n")⟩ := by
  rw [are_you_sure_eq, if_pos h]

theorem are_you_sure_declined (w : World) (sdp : gfs2_sbd)
    (h : 0 ≤ (w.identify_device sdp.device_fd).1) (ha : answer w ≠ 'y') :
    (are_you_sure w sdp).out = .stop (.die "aborted\n") ∧
    (are_you_sure w sdp).trace.filter is_call = [.call .identify_device, .call .fgets] := by
  unfold answer at ha
  rw [are_you_sure_eq, if_neg (not_lt.2 h)]
  simp only [if_neg ha]
  refine ⟨trivial, ?_⟩
  by_cases h0 : (w.identify_device sdp.device_fd).1 = 0 <;> simp [h0, is_call]

theorem are_you_sure_confirmed (w : World) (sdp : gfs2_sbd)
    (h : 0 ≤ (w.identify_device sdp.device_fd).1) (ha : answer w = 'y') :
    (are_you_sure w sdp).out = .ok () ∧
    (are_you_sure w sdp).trace.filter is_call = [.call .identify_device, .call .fgets] := by
  unfold answer at ha
  rw [are_you_sure_eq, if_neg (not_lt.2 h)]
  simp only [if_pos ha]
  refine ⟨trivial, ?_⟩
  by_cases h0 : (w.identify_device sdp.device_fd).1 = 0 <;> simp [h0, is_call]

theorem construct_cases (w : World) (sdp : gfs2_sbd) :
    (construct w sdp =
      ⟨construction_calls.map .call ++ (release_device w sdp).trace,
        (release_device w sdp).out⟩) ∨
    (∃ pre c post, construction_calls = pre ++ c :: post ∧
      construct w sdp = ⟨(pre ++ [c]).map .call, .stop (.lib c)⟩) := by
  unfold construct
  rw [bind_eq]
  rcases lib_seq_cases w construction_calls with ⟨h1, h2⟩ | ⟨pre, c, post, h1, h2, h3⟩
  · left
    rw [bind_of_ok _ _ _ h1, h2]
  · right
    refine ⟨pre, c, post, h1, ?_⟩
    rw [bind_of_stop _ _ _ h3, h2]

theorem construct_head (w : World) (sdp : gfs2_sbd) :
    ∃ t, (construct w sdp).trace = .call .compute_constants :: t := by
  rcases construct_cases w sdp with h | ⟨pre, c, post, h1, h2⟩
  · rw [h]; exact ⟨_, rfl⟩
  · rw [h2]
    cases pre with
    | nil =>
      simp only [construction_calls, List.nil_append, List.cons.injEq] at h1
      rw [← h1.1]
      exact ⟨_, rfl⟩
    | cons p pre =>
      simp only [construction_calls, List.cons_append, List.cons.injEq] at h1
      rw [← h1.1]
      exact ⟨_, rfl⟩

theorem format_device_stopped (w : World) (sdp : gfs2_sbd) (s : Stop)
    (h : (open_and_confirm w sdp).out = .stop s) :
    format_device w sdp = ⟨(open_and_confirm w sdp).trace, .stop s⟩ := by
  unfold format_device
  rw [bind_eq, bind_of_stop _ _ _ h]

theorem format_device_confirmed (w : World) (sdp sdp1 : gfs2_sbd)
    (h : (open_and_confirm w sdp).out = .ok sdp1) :
    format_device w sdp =
      ⟨(open_and_confirm w sdp).trace ++ (construct w sdp1).trace, (construct w sdp1).out⟩ := by
  unfold format_device
  rw [bind_eq, bind_of_ok _ _ _ h]

theorem filter_calls (P : Action → Bool) (hP : ∀ x, is_call x = false → P x = false)
    (l : List Action) : (l.filter is_call).filter P = l.filter P := by
  induction l with
  | nil => rfl
  | cons a l ih =>
    cases ha : is_call a
    · simp [List.filter_cons, ha, hP a ha, ih]
    · simp [List.filter_cons, ha, ih]

theorem mem_calls {α : Type} (r : Run α) (c : Call) :
    Action.call c ∈ calls r ↔ Action.call c ∈ r.trace := by
  unfold calls
  simp [List.mem_filter, is_call]

theorem format_device_calls (w : World) (sdp : gfs2_sbd)
    (h : 0 ≤ w.open_device (sdp.device_name.getD "")) :
    calls (format_device w sdp) =
      .call .open_device :: gate_calls w sdp ++
        (if gate_passes w sdp then
          calls (construct w { sdp with device_fd := w.open_device (sdp.device_name.getD "") })
        else []) ∧
    (format_device w sdp).out =
      if gate_passes w sdp then
        (construct w { sdp with device_fd := w.open_device (sdp.device_name.getD "") }).out
      else if (w.identify_device (w.open_device (sdp.device_name.getD ""))).1 < 0 then
        .stop (.die "error identifying the contents of %s: %s\n")
      else .stop (.die "aborted\n") := by
  unfold calls gate_calls gate_passes
  by_cases ho' : sdp.override = true
  swap
  · have ho : sdp.override = false := by simpa using ho'
    by_cases hi : (w.identify_device (w.open_device (sdp.device_name.getD ""))).1 < 0
    · have e := are_you_sure_ident_fail w
        { sdp with device_fd := w.open_device (sdp.device_name.getD "") } hi
      have hg := open_and_confirm_gate_stop w sdp _ h ho (by rw [e])
      rw [format_device_stopped w sdp _ (by rw [hg]), hg, e]
      simp [hi, is_call, not_le.2 hi, ho]
    · by_cases ha : answer w = 'y'
      · obtain ⟨e1, e2⟩ := are_you_sure_confirmed w
          { sdp with device_fd := w.open_device (sdp.device_name.getD "") } (not_lt.1 hi) ha
        have hg := open_and_confirm_gate_ok w sdp h ho e1
        rw [format_device_confirmed w sdp _ (by rw [hg]), hg]
        simp only [List.filter_append, List.filter_cons, is_call, if_true, e2]
        simp [hi, ha, not_lt.1 hi, ho]
      · obtain ⟨e1, e2⟩ := are_you_sure_declined w
          { sdp with device_fd := w.open_device (sdp.device_name.getD "") } (not_lt.1 hi) ha
        have hg := open_and_confirm_gate_stop w sdp _ h ho e1
        rw [format_device_stopped w sdp _ (by rw [hg]), hg]
        simp only [List.filter_cons, is_call, if_true, e2]
        simp [hi, ha, ho]
  · have hg := open_and_confirm_override w sdp h ho'
    rw [format_device_confirmed w sdp _ (by rw [hg]), hg]
    simp [List.filter_append, List.filter_cons, is_call, ho']

theorem construct_ok (w : World) (sdp : gfs2_sbd) (h : (construct w sdp).out = .ok ()) :
    (construct w sdp).trace =
      construction_calls.map .call ++ [.call .fsync, .call .close] ++
        (print_results sdp).trace := by
  rcases construct_cases w sdp with e | ⟨pre, c, post, _, e⟩
  · rw [e] at h ⊢
    rw [release_device_eq] at h ⊢
    by_cases h1 : w.fsync sdp.device_fd = 0 <;> by_cases h2 : w.close sdp.device_fd = 0 <;>
      simp [h1, h2] at h ⊢
  · rw [e] at h
    simp at h

theorem release_free_calls :
    ∀ c ∈ construction_calls, is_release (.call c) = false := by decide

theorem construct_release (w : World) (sdp : gfs2_sbd) :
    (construct w sdp).trace.filter is_release =
      if (construct w sdp).out = .ok () ∨
          (construct w sdp).out = .stop (.die "error closing device (%d): %s\n") then
        [.call .fsync, .call .close]
      else if (construct w sdp).out = .stop (.die "can't fsync device (%d): %s\n") then
        [.call .fsync]
      else [] := by
  have hcc : ∀ l : List Call, (∀ c ∈ l, c ∈ construction_calls) →
      (l.map Action.call).filter is_release = [] := by
    intro l hl
    rw [List.filter_eq_nil_iff]
    intro x hx
    simp only [List.mem_map] at hx
    obtain ⟨c, hc, rfl⟩ := hx
    rw [release_free_calls c (hl c hc)]
    simp
  have hpr : (print_results sdp).trace.filter is_release = [] := by
    rw [List.filter_eq_nil_iff]
    intro x hx
    have := silent_print_results sdp x hx
    cases x <;> simp_all [is_call, is_release]
  rcases construct_cases w sdp with e | ⟨pre, c, post, hsplit, e⟩
  · rw [e, release_device_eq]
    by_cases h1 : w.fsync sdp.device_fd = 0 <;> by_cases h2 : w.close sdp.device_fd = 0 <;>
      simp [h1, h2, List.filter_append, hcc construction_calls (fun _ h => h), hpr,
        is_release, List.filter_cons]
  · rw [e]
    have : ∀ c' ∈ pre ++ [c], c' ∈ construction_calls := by
      intro c' hc'
      rw [hsplit]
      simp only [List.mem_append, List.mem_singleton, List.mem_cons] at hc' ⊢
      tauto
    rw [hcc _ this]
    simp

theorem main_mkfs_ok (cfg : Config) (w : World) (cmd : CommandLine)
    (h : (main_mkfs cfg w cmd).out = .ok ()) :
    ∃ sdp, (decode_arguments cfg w cmd (init_sbd cfg)).out = .ok sdp ∧
      (verify_arguments w sdp).out = .ok () ∧
      0 ≤ w.open_device (sdp.device_name.getD "") ∧
      gate_passes w sdp ∧
      (open_and_confirm w sdp).out =
        .ok { sdp with device_fd := w.open_device (sdp.device_name.getD "") } ∧
      (construct w
        { sdp with device_fd := w.open_device (sdp.device_name.getD "") }).out = .ok () := by
  rw [main_mkfs_stages, bind_out_ok] at h
  obtain ⟨sdp, hdec, h⟩ := h
  rw [bind_out_ok] at h
  obtain ⟨_, hver, h⟩ := h
  have hopen : 0 ≤ w.open_device (sdp.device_name.getD "") := by
    by_contra hneg
    have e := open_and_confirm_fail w sdp (not_le.1 hneg)
    rw [format_device_stopped w sdp _ (by rw [e])] at h
    simp at h
  have hout := (format_device_calls w sdp hopen).2
  rw [h] at hout
  by_cases hp : gate_passes w sdp
  · rw [if_pos hp] at hout
    refine ⟨sdp, hdec, hver, hopen, hp, ?_, hout.symm⟩
    cases hoc : (open_and_confirm w sdp).out with
    | stop s =>
      rw [format_device_stopped w sdp s hoc] at h
      simp at h
    | ok sdp1 =>
      by_cases ho : sdp.override = true
      · rw [open_and_confirm_override w sdp hopen ho] at hoc
        exact hoc.symm
      · have ho2 : sdp.override = false := by simpa using ho
        unfold gate_passes at hp
        rcases hp with hp | ⟨hp1, hp2⟩
        · exact absurd hp ho
        · have e := (are_you_sure_confirmed w
            { sdp with device_fd := w.open_device (sdp.device_name.getD "") } hp1 hp2).1
          rw [open_and_confirm_gate_ok w sdp hopen ho2 e] at hoc
          exact hoc.symm
  · rw [if_neg hp] at hout
    split at hout <;> simp at hout

theorem are_you_sure_mem (w : World) (sdp : gfs2_sbd) :
    ∀ x ∈ (are_you_sure w sdp).trace, opening_action x = true := by
  rw [are_you_sure_eq]
  by_cases h1 : (w.identify_device sdp.device_fd).1 < 0
  · rw [if_pos h1]; decide
  · rw [if_neg h1]
    by_cases h2 : (w.identify_device sdp.device_fd).1 = 0 <;>
      by_cases h3 : (fgets w.input 32 w.stdin).2.headD (Char.ofNat 0) = 'y' <;>
      simp only [h2, h3, if_true, if_false] <;> decide

theorem open_and_confirm_mem (w : World) (sdp : gfs2_sbd) :
    ∀ x ∈ (open_and_confirm w sdp).trace, opening_action x = true := by
  have hays := are_you_sure_mem w
    { sdp with device_fd := w.open_device (sdp.device_name.getD "") }
  by_cases h : w.open_device (sdp.device_name.getD "") < 0
  · rw [open_and_confirm_fail w sdp h]; decide
  · by_cases ho : sdp.override = true
    · rw [open_and_confirm_override w sdp (not_lt.1 h) ho]
      intro x hx
      simp only [List.mem_singleton] at hx
      rw [hx]; rfl
    · have ho2 : sdp.override = false := by simpa using ho
      have key : ∀ x ∈ Action.call Call.open_device :: (are_you_sure w
          { sdp with device_fd := w.open_device (sdp.device_name.getD "") }).trace,
          opening_action x = true := by
        intro x hx
        simp only [List.mem_cons] at hx
        rcases hx with hx | hx
        · rw [hx]; rfl
        · exact hays x hx
      cases hg : (are_you_sure w
          { sdp with device_fd := w.open_device (sdp.device_name.getD "") }).out with
      | ok u => rw [open_and_confirm_gate_ok w sdp (not_lt.1 h) ho2 hg]; exact key
      | stop s => rw [open_and_confirm_gate_stop w sdp s (not_lt.1 h) ho2 hg]; exact key

theorem construct_mem (w : World) (sdp : gfs2_sbd) :
    ∀ x ∈ (construct w sdp).trace, construct_action x = true := by
  have hcc : ∀ l : List Call, (∀ c ∈ l, c ∈ construction_calls) →
      ∀ x ∈ l.map Action.call, construct_action x = true := by
    intro l hl x hx
    simp only [List.mem_map] at hx
    obtain ⟨c, hc, rfl⟩ := hx
    simp only [construct_action, decide_eq_true_eq, List.mem_append]
    exact Or.inl (hl c hc)
  have hpr : ∀ x ∈ (print_results sdp).trace, construct_action x = true := by
    intro x hx
    have := silent_print_results sdp x hx
    cases x <;> simp_all [is_call, construct_action]
  rcases construct_cases w sdp with e | ⟨pre, c, post, hsplit, e⟩
  · rw [e, release_device_eq]
    intro x hx
    simp only [List.mem_append] at hx
    rcases hx with hx | hx
    · exact hcc _ (fun _ h => h) x hx
    · have hfs : construct_action (.call .fsync) = true := by decide
      have hcl : construct_action (.call .close) = true := by decide
      by_cases h1 : w.fsync sdp.device_fd = 0
      · by_cases h2 : w.close sdp.device_fd = 0
        · simp only [h1, h2, ne_eq, not_true_eq_false, if_false, List.mem_append,
            List.mem_cons, List.not_mem_nil, or_false] at hx
          rcases hx with (hx | hx) | hx
          · rw [hx]; exact hfs
          · rw [hx]; exact hcl
          · exact hpr x hx
        · simp only [h1, h2, ne_eq, not_true_eq_false, not_false_eq_true, if_false, if_true,
            List.mem_cons, List.not_mem_nil, or_false] at hx
          rcases hx with hx | hx
          · rw [hx]; exact hfs
          · rw [hx]; exact hcl
      · simp only [h1, ne_eq, not_false_eq_true, if_true, List.mem_cons, List.not_mem_nil,
          or_false] at hx
        rw [hx]; exact hfs
  · rw [e]
    apply hcc
    intro c' hc'
    rw [hsplit]
    simp only [List.mem_append, List.mem_singleton, List.mem_cons] at hc' ⊢
    tauto

theorem main_mkfs_ok_trace (cfg : Config) (w : World) (cmd : CommandLine)
    (h : (main_mkfs cfg w cmd).out = .ok ()) :
    ∃ sdp pre,
      (decode_arguments cfg w cmd (init_sbd cfg)).out = .ok sdp ∧
      (main_mkfs cfg w cmd).trace =
        pre ++ (construction_calls.map .call ++ [.call .fsync, .call .close] ++
          (print_results
            { sdp with device_fd := w.open_device (sdp.device_name.getD "") }).trace) ∧
      ∀ x ∈ pre, x = .call .test_locking ∨ opening_action x = true := by
  obtain ⟨sdp, hdec, hver, hopen, _, hoc, hcons⟩ := main_mkfs_ok cfg w cmd h
  refine ⟨sdp,
    (decode_arguments cfg w cmd (init_sbd cfg)).trace ++
      ((verify_arguments w sdp).trace ++ (open_and_confirm w sdp).trace), hdec, ?_, ?_⟩
  · rw [main_mkfs_of_verified cfg w cmd sdp hdec hver,
      format_device_confirmed w sdp _ hoc, construct_ok w _ hcons]
    simp only [List.append_assoc]
  · intro x hx
    simp only [List.mem_append] at hx
    rcases hx with hx | hx | hx
    · right
      have := silent_decode_arguments cfg w cmd _ x hx
      cases x <;> simp_all [is_call, opening_action]
    · left; exact verify_arguments_trace w sdp x hx
    · right; exact open_and_confirm_mem w sdp x hx

/-! ## The claims about the run of `main_mkfs` -/

/-- C6: in every successful run of `main_mkfs` the builder invocations are
exactly `build_rgrps`, `build_root`, `build_master`, `build_sb`,
`build_jindex`, `build_per_node`, `build_inum`, `build_statfs`, `build_rindex`,
`build_quota`, `do_init`, in that order; each occurs exactly once in the trace,
and whenever `a` stands before `b` in that list the call of `a` comes before
the call of `b` in the trace (so the master directory precedes per-node, inum,
statfs, rindex and quota, the resource groups precede root and master, and the
superblock follows root and master). -/
theorem C6_builder_order (cfg : Config) (w : World) (cmd : CommandLine)
    (h : (main_mkfs cfg w cmd).out = .ok ()) :
    (main_mkfs cfg w cmd).trace.filter is_builder = builders.map .call ∧
    (∀ c ∈ builders, (main_mkfs cfg w cmd).trace.count (.call c) = 1) ∧
    (∀ a b, List.Sublist [a, b] builders →
      List.Sublist [Action.call a, Action.call b] (main_mkfs cfg w cmd).trace) := by
  obtain ⟨sdp0, pre, _, htrace, hpre⟩ := main_mkfs_ok_trace cfg w cmd h
  generalize ({ sdp0 with device_fd := w.open_device (sdp0.device_name.getD "") } :
    gfs2_sbd) = sdp at htrace
  have h1 : pre.filter is_builder = [] := by
    rw [List.filter_eq_nil_iff]
    intro x hx
    rcases hpre x hx with k | k
    · rw [k]; decide
    · cases x with
      | call c => cases c <;> simp_all [opening_action, is_builder, builders]
      | printf _ => simp [is_builder]
      | eprintf _ => simp [is_builder]
  have h2 : (print_results sdp).trace.filter is_builder = [] := by
    rw [List.filter_eq_nil_iff]
    intro x hx
    have := silent_print_results sdp x hx
    cases x <;> simp_all [is_call, is_builder]
  have h3 : (construction_calls.map Action.call ++
      [Action.call Call.fsync, Action.call Call.close]).filter is_builder =
      builders.map Action.call := by decide
  have hfilter : (main_mkfs cfg w cmd).trace.filter is_builder = builders.map .call := by
    rw [htrace, List.filter_append, List.filter_append, h1, h2, h3]
    simp
  refine ⟨hfilter, ?_, ?_⟩
  · intro c hc
    have hb : is_builder (.call c) = true := by simp [is_builder, hc]
    rw [← List.count_filter hb, hfilter]
    revert c
    decide
  · intro a b hab
    have := List.Sublist.map Action.call hab
    rw [← hfilter] at this
    exact this.trans (List.filter_sublist _)

theorem sample_run_ok : (main_mkfs sample_config sample_world sample_command).out = .ok () := by
  rw [main_mkfs_of_verified sample_config sample_world sample_command sample_sbd (by decide)
    ((verify_arguments_ok_iff _ _).2 (by decide))]
  decide

theorem C6_builder_order_witness :
    (main_mkfs sample_config sample_world sample_command).out = .ok () ∧
    (main_mkfs sample_config sample_world sample_command).trace.filter is_builder =
      builders.map .call :=
  ⟨sample_run_ok, (C6_builder_order sample_config sample_world sample_command sample_run_ok).1⟩

/-- C7: in every successful run of `main_mkfs` (all builders and `do_init`
complete, `fsync` and `close` return 0) the actions from `do_init` on are
exactly `do_init`, `inode_put` of `root_dir`, of `master_dir`, of `inum_inode`
and of `statfs_inode`, `bsync`, `fsync`, `close`, and then what
`print_results` prints; `do_init` does not occur earlier, `fsync` and `close`
occur exactly once each in the whole trace, and nothing behind `close` is a
call of a collaborator. -/
theorem C7_completion_actions (cfg : Config) (w : World) (cmd : CommandLine)
    (h : (main_mkfs cfg w cmd).out = .ok ()) :
    (∃ pre sdp0 sdp,
      (decode_arguments cfg w cmd (init_sbd cfg)).out = .ok sdp0 ∧
      sdp = { sdp0 with device_fd := w.open_device (sdp0.device_name.getD "") } ∧
      (main_mkfs cfg w cmd).trace =
        pre ++ completion_calls.map .call ++ (print_results sdp).trace ∧
      Action.call .do_init ∉ pre ∧
      (∀ x ∈ (print_results sdp).trace, is_call x = false ∧ device_action x = false)) ∧
    (main_mkfs cfg w cmd).trace.count (.call .fsync) = 1 ∧
    (main_mkfs cfg w cmd).trace.count (.call .close) = 1 := by
  obtain ⟨sdp0, pre, hdec, htrace, hpre⟩ := main_mkfs_ok_trace cfg w cmd h
  generalize hsdp : ({ sdp0 with device_fd := w.open_device (sdp0.device_name.getD "") } :
    gfs2_sbd) = sdp at htrace
  have hpr : ∀ x ∈ (print_results sdp).trace, is_call x = false ∧ device_action x = false := by
    intro x hx
    have := silent_print_results sdp x hx
    cases x <;> simp_all [is_call, device_action]
  have hnot : ∀ c : Call, c ≠ .test_locking → opening_action (.call c) = false →
      Action.call c ∉ pre := by
    intro c hc1 hc2 hmem
    rcases hpre _ hmem with k | k
    · simp only [Action.call.injEq] at k
      exact hc1 k
    · rw [hc2] at k
      cases k
  have hcount : ∀ c : Call, c ≠ .test_locking → opening_action (.call c) = false →
      (main_mkfs cfg w cmd).trace.count (.call c) =
        (construction_calls.map Action.call ++
          [Action.call Call.fsync, Action.call Call.close]).count (.call c) := by
    intro c hc1 hc2
    rw [htrace]
    simp only [List.count_append]
    have e1 : pre.count (.call c) = 0 := List.count_eq_zero.2 (hnot c hc1 hc2)
    have e2 : (print_results sdp).trace.count (.call c) = 0 :=
      List.count_eq_zero.2 (fun hm => by simpa [is_call] using (hpr _ hm).1)
    rw [e1, e2]
    simp
  refine ⟨⟨pre ++ (construction_calls.take 14).map .call, sdp0, sdp, hdec, hsdp.symm, ?_, ?_,
    hpr⟩, ?_, ?_⟩
  · rw [htrace]
    simp only [List.append_assoc]
    rfl
  · intro hmem
    simp only [List.mem_append] at hmem
    rcases hmem with hm | hm
    · exact hnot .do_init (by decide) (by decide) hm
    · revert hm
      decide
  · rw [hcount .fsync (by decide) (by decide)]
    decide
  · rw [hcount .close (by decide) (by decide)]
    decide

theorem C7_completion_actions_witness :
    (main_mkfs sample_config sample_world sample_command).out = .ok () ∧
    (main_mkfs sample_config sample_world sample_command).trace.count (.call .fsync) = 1 ∧
    (main_mkfs sample_config sample_world sample_command).trace.count (.call .close) = 1 :=
  ⟨sample_run_ok,
    (C7_completion_actions sample_config sample_world sample_command sample_run_ok).2⟩

theorem mem_main_call (cfg : Config) (w : World) (cmd : CommandLine) (sdp : gfs2_sbd)
    (hdec : (decode_arguments cfg w cmd (init_sbd cfg)).out = .ok sdp)
    (hver : (verify_arguments w sdp).out = .ok ()) (c : Call) (hc : c ≠ .test_locking) :
    Action.call c ∈ (main_mkfs cfg w cmd).trace ↔
      Action.call c ∈ calls (format_device w sdp) := by
  rw [mem_calls, main_mkfs_of_verified cfg w cmd sdp hdec hver]
  simp only [List.mem_append]
  constructor
  · rintro (hx | hx | hx)
    · have := silent_decode_arguments cfg w cmd _ _ hx
      simp [is_call] at this
    · have := verify_arguments_trace w sdp _ hx
      simp only [Action.call.injEq] at this
      exact absurd this hc
    · exact hx
  · intro hx
    exact Or.inr (Or.inr hx)

theorem compute_constants_mem_construct (w : World) (sdp : gfs2_sbd) :
    Action.call .compute_constants ∈ calls (construct w sdp) := by
  rw [mem_calls]
  obtain ⟨t, ht⟩ := construct_head w sdp
  rw [ht]
  exact List.mem_cons_self _ _

theorem gate_calls_cases (w : World) (sdp : gfs2_sbd) :
    gate_calls w sdp = [] ∨ gate_calls w sdp = [.call .identify_device] ∨
      gate_calls w sdp = [.call .identify_device, .call .fgets] := by
  unfold gate_calls
  split
  · exact Or.inl rfl
  · split
    · exact Or.inr (Or.inl rfl)
    · exact Or.inr (Or.inr rfl)

/-- C1: in `main_mkfs`, once the arguments are decoded and verified and the
device is opened: with the override flag unset and a line on standard input
whose first character is `c`, the run goes on to `compute_constants` exactly
when `identify_device` returned a non-negative result and `c` is `y`;
otherwise it ends in `die` (identification error or `aborted`) and its trace
holds no geometry probe and no builder, and when `identify_device` fails the
run dies before the prompt is read (no `fgets`). With the override flag set
neither `identify_device` nor `fgets` is called and the run goes on to
`compute_constants`. -/
theorem C1_confirmation_gate (cfg : Config) (w : World) (cmd : CommandLine)
    (sdp : gfs2_sbd)
    (hdec : (decode_arguments cfg w cmd (init_sbd cfg)).out = .ok sdp)
    (hver : (verify_arguments w sdp).out = .ok ())
    (hopen : 0 ≤ w.open_device (sdp.device_name.getD "")) :
    (sdp.override = false → ∀ c rest, w.stdin = c :: rest →
      (Action.call .compute_constants ∈ (main_mkfs cfg w cmd).trace ↔
        (0 ≤ (w.identify_device (w.open_device (sdp.device_name.getD ""))).1 ∧ c = 'y')) ∧
      (¬ (0 ≤ (w.identify_device (w.open_device (sdp.device_name.getD ""))).1 ∧ c = 'y') →
        ((main_mkfs cfg w cmd).out =
            .stop (.die "error identifying the contents of %s: %s\n") ∨
          (main_mkfs cfg w cmd).out = .stop (.die "aborted\n")) ∧
        (main_mkfs cfg w cmd).trace.filter geometry_or_builder = []) ∧
      ((w.identify_device (w.open_device (sdp.device_name.getD ""))).1 < 0 →
        (main_mkfs cfg w cmd).out =
          .stop (.die "error identifying the contents of %s: %s\n") ∧
        Action.call .fgets ∉ (main_mkfs cfg w cmd).trace)) ∧
    (sdp.override = true →
      Action.call .identify_device ∉ (main_mkfs cfg w cmd).trace ∧
      Action.call .fgets ∉ (main_mkfs cfg w cmd).trace ∧
      Action.call .compute_constants ∈ (main_mkfs cfg w cmd).trace) := by
  obtain ⟨hcalls, hout⟩ := format_device_calls w sdp hopen
  have hmain : (main_mkfs cfg w cmd).out = (format_device w sdp).out := by
    rw [main_mkfs_of_verified cfg w cmd sdp hdec hver]
  have hgeo : (main_mkfs cfg w cmd).trace.filter geometry_or_builder =
      (calls (format_device w sdp)).filter geometry_or_builder := by
    rw [main_mkfs_filter cfg w cmd sdp geometry_or_builder
      (by intro x hx; cases x <;> simp_all [is_call, geometry_or_builder]) (by decide) hdec hver]
    unfold calls
    rw [filter_calls]
    intro x hx; cases x <;> simp_all [is_call, geometry_or_builder]
  constructor
  · intro ho c rest hin
    have hans := answer_of_line w c rest hin
    have hpass : gate_passes w sdp ↔
        (0 ≤ (w.identify_device (w.open_device (sdp.device_name.getD ""))).1 ∧ c = 'y') := by
      unfold gate_passes
      rw [hans, ho]
      simp
    have hclosed : ¬ gate_passes w sdp →
        calls (format_device w sdp) = .call .open_device :: gate_calls w sdp := by
      intro hp
      rw [hcalls, if_neg hp]
      simp
    refine ⟨?_, ?_, ?_⟩
    · rw [mem_main_call cfg w cmd sdp hdec hver _ (by decide), ← hpass]
      constructor
      · intro hmem
        by_contra hp
        rw [hclosed hp] at hmem
        rcases gate_calls_cases w sdp with k | k | k <;> rw [k] at hmem <;> revert hmem <;>
          decide
      · intro hp
        rw [hcalls, if_pos hp]
        simp only [List.mem_append, List.mem_cons]
        exact Or.inr (compute_constants_mem_construct w _)
    · intro hng
      have hp : ¬ gate_passes w sdp := fun hp => hng (hpass.1 hp)
      constructor
      · rw [hmain, hout, if_neg hp]
        split
        · exact Or.inl rfl
        · exact Or.inr rfl
      · rw [hgeo, hclosed hp]
        rcases gate_calls_cases w sdp with k | k | k <;> rw [k] <;> decide
    · intro hid
      have hp : ¬ gate_passes w sdp := fun hp => by
        have := (hpass.1 hp).1
        omega
      constructor
      · rw [hmain, hout, if_neg hp, if_pos hid]
      · rw [mem_main_call cfg w cmd sdp hdec hver _ (by decide), hclosed hp]
        unfold gate_calls
        rw [if_neg (by simp [ho]), if_pos hid]
        decide
  · intro ho
    have hp : gate_passes w sdp := Or.inl ho
    have hgc : gate_calls w sdp = [] := by
      unfold gate_calls
      rw [if_pos ho]
    rw [hgc, if_pos hp] at hcalls
    refine ⟨?_, ?_, ?_⟩
    · rw [mem_main_call cfg w cmd sdp hdec hver _ (by decide), hcalls]
      simp only [List.cons_append, List.nil_append, List.mem_cons, Action.call.injEq,
        reduceCtorEq, false_or]
      intro hmem
      rw [mem_calls] at hmem
      have := construct_mem w _ _ hmem
      revert this
      decide
    · rw [mem_main_call cfg w cmd sdp hdec hver _ (by decide), hcalls]
      simp only [List.cons_append, List.nil_append, List.mem_cons, Action.call.injEq,
        reduceCtorEq, false_or]
      intro hmem
      rw [mem_calls] at hmem
      have := construct_mem w _ _ hmem
      revert this
      decide
    · rw [mem_main_call cfg w cmd sdp hdec hver _ (by decide), hcalls]
      simp only [List.cons_append, List.nil_append, List.mem_cons]
      exact Or.inr (compute_constants_mem_construct w _)

theorem bind_trace_nil {α β : Type} (m : Run α) (f : α → Run β) (hm : m.trace = [])
    (hf : ∀ a, (f a).trace = []) : (Run.bind m f).trace = [] := by
  unfold Run.bind
  cases h : m.out with
  | ok a => simp [hm, hf a]
  | stop s => simp [hm]

theorem check_trace_nil (c : Prop) [Decidable c] (fmt : String) :
    (if c then (die fmt : Run Unit) else pure ()).trace = [] := by
  by_cases h : c <;> simp [h, die, pure_trace]

theorem bind_trace_right_nil {α β : Type} (m : Run α) (f : α → Run β)
    (hf : ∀ a, (f a).trace = []) : (Run.bind m f).trace = m.trace := by
  unfold Run.bind
  cases h : m.out with
  | ok a => simp [hf a]
  | stop s => rfl

theorem verify_arguments_trace_eq (w : World) (sdp : gfs2_sbd) :
    (verify_arguments w sdp).trace =
      if sdp.expert = true then [] else [.call .test_locking] := by
  unfold verify_arguments
  simp only [bind_eq]
  refine (bind_trace_right_nil _ _ (fun _ => ?_)).trans ?_
  · refine bind_trace_nil _ _ (check_trace_nil _ _) (fun _ => ?_)
    refine bind_trace_nil _ _ ?_ (fun _ => ?_)
    · by_cases h : sdp.expert = true
      · rw [if_pos h]; exact check_trace_nil _ _
      · rw [if_neg h]; exact check_trace_nil _ _
    refine bind_trace_nil _ _ (check_trace_nil _ _) (fun _ => ?_)
    refine bind_trace_nil _ _ (check_trace_nil _ _) (fun _ => ?_)
    refine bind_trace_nil _ _ (check_trace_nil _ _) (fun _ => ?_)
    exact check_trace_nil _ _
  · cases hx : sdp.expert <;> simp [test_locking, pure_trace]

/-- The run of `main_mkfs` behind a successful `verify_arguments`, with the
trace of `verify_arguments` spelled out. -/
theorem main_mkfs_eval (cfg : Config) (w : World) (cmd : CommandLine) (sdp : gfs2_sbd)
    (hdec : (decode_arguments cfg w cmd (init_sbd cfg)).out = .ok sdp)
    (hver : locking_passes w sdp ∧ sdp.bsize ∈ valid_block_sizes ∧ sizes_in_bounds sdp) :
    main_mkfs cfg w cmd =
      ⟨(decode_arguments cfg w cmd (init_sbd cfg)).trace ++
        ((if sdp.expert = true then [] else [.call .test_locking]) ++
          (format_device w sdp).trace),
        (format_device w sdp).out⟩ := by
  rw [main_mkfs_of_verified cfg w cmd sdp hdec ((verify_arguments_ok_iff w sdp).2 hver),
    verify_arguments_trace_eq]

theorem C1_confirmation_gate_witness :
    (decode_arguments sample_config sample_world sample_command
        (init_sbd sample_config)).out = .ok sample_sbd ∧
    (verify_arguments sample_world sample_sbd).out = .ok () ∧
    0 ≤ sample_world.open_device (sample_sbd.device_name.getD "") ∧
    Action.call .compute_constants ∈
      (main_mkfs sample_config sample_world sample_command).trace :=
  ⟨by decide, (verify_arguments_ok_iff _ _).2 (by decide), by decide,
    (((C1_confirmation_gate sample_config sample_world sample_command sample_sbd (by decide)
      ((verify_arguments_ok_iff _ _).2 (by decide)) (by decide)).1 rfl 'y' ['\n'] rfl).1).2
      ⟨by decide, rfl⟩⟩

/-- C8 (as stated, refuted): in the run on a device that opens as descriptor 3
and whose identification fails, the device has been opened, the run ends in
`die`, and neither `fsync` nor `close` has been called. -/
theorem C8_counterexample :
    0 ≤ ident_fail_world.open_device (sample_sbd.device_name.getD "") ∧
    Action.call .open_device ∈
      (main_mkfs sample_config ident_fail_world sample_command).trace ∧
    (main_mkfs sample_config ident_fail_world sample_command).out =
      .stop (.die "error identifying the contents of %s: %s\n") ∧
    (main_mkfs sample_config ident_fail_world sample_command).trace.filter is_release = [] := by
  rw [main_mkfs_eval sample_config ident_fail_world sample_command sample_sbd
    (by decide) (by decide)]
  decide

/-- C8 (amended): on every exit path of `main_mkfs` taken after the device has
been opened successfully, the release actions of the run are: `fsync` then
`close`, each exactly once, when the run succeeds or `close` itself fails;
`fsync` alone, once, when `fsync` fails; and none at all on every other fatal
path (identification error, confirmation decline, a collaborator that
terminates the process). Neither is ever called twice, and `close` is never
called without a preceding `fsync`. -/
theorem C8_release_on_exit (cfg : Config) (w : World) (cmd : CommandLine)
    (sdp : gfs2_sbd)
    (hdec : (decode_arguments cfg w cmd (init_sbd cfg)).out = .ok sdp)
    (hver : (verify_arguments w sdp).out = .ok ())
    (hopen : 0 ≤ w.open_device (sdp.device_name.getD "")) :
    (main_mkfs cfg w cmd).trace.filter is_release =
      if (main_mkfs cfg w cmd).out = .ok () ∨
          (main_mkfs cfg w cmd).out = .stop (.die "error closing device (%d): %s\n") then
        [.call .fsync, .call .close]
      else if (main_mkfs cfg w cmd).out = .stop (.die "can't fsync device (%d): %s\n") then
        [.call .fsync]
      else [] := by
  obtain ⟨hcalls, hout⟩ := format_device_calls w sdp hopen
  have hmain : (main_mkfs cfg w cmd).out = (format_device w sdp).out := by
    rw [main_mkfs_of_verified cfg w cmd sdp hdec hver]
  have hP : ∀ x, is_call x = false → is_release x = false := by
    intro x hx; cases x <;> simp_all [is_call, is_release]
  have hrel : (main_mkfs cfg w cmd).trace.filter is_release =
      (calls (format_device w sdp)).filter is_release := by
    rw [main_mkfs_filter cfg w cmd sdp is_release hP (by decide) hdec hver]
    unfold calls
    rw [filter_calls _ hP]
  have hgate : (gate_calls w sdp).filter is_release = [] := by
    rcases gate_calls_cases w sdp with k | k | k <;> rw [k] <;> decide
  have hfirst : (Action.call Call.open_device :: gate_calls w sdp).filter is_release = [] := by
    rw [List.filter_cons, hgate]
    rfl
  rw [hrel, hcalls, hmain, hout, List.filter_append, hfirst, List.nil_append]
  by_cases hp : gate_passes w sdp
  · simp only [if_pos hp]
    unfold calls
    rw [filter_calls _ hP, construct_release]
  · simp only [if_neg hp]
    split <;> simp

theorem C8_release_on_exit_witness :
    (decode_arguments sample_config ident_fail_world sample_command
        (init_sbd sample_config)).out = .ok sample_sbd ∧
    (verify_arguments ident_fail_world sample_sbd).out = .ok () ∧
    0 ≤ ident_fail_world.open_device (sample_sbd.device_name.getD "") ∧
    (main_mkfs sample_config ident_fail_world sample_command).trace.filter is_release =
      if (main_mkfs sample_config ident_fail_world sample_command).out = .ok () ∨
          (main_mkfs sample_config ident_fail_world sample_command).out =
            .stop (.die "error closing device (%d): %s\n") then
        [.call .fsync, .call .close]
      else if (main_mkfs sample_config ident_fail_world sample_command).out =
          .stop (.die "can't fsync device (%d): %s\n") then
        [.call .fsync]
      else [] :=
  ⟨by decide, (verify_arguments_ok_iff _ _).2 (by decide), by decide,
    C8_release_on_exit sample_config ident_fail_world sample_command sample_sbd (by decide)
      ((verify_arguments_ok_iff _ _).2 (by decide)) (by decide)⟩

/-- With the override flag unset and standard input at end of file, the run
goes on to `compute_constants` exactly when `identify_device` succeeded and the
array `input` already held `y` in its first byte. -/
theorem unread_answer_gate (cfg : Config) (w : World) (cmd : CommandLine) (sdp : gfs2_sbd)
    (hdec : (decode_arguments cfg w cmd (init_sbd cfg)).out = .ok sdp)
    (hver : (verify_arguments w sdp).out = .ok ())
    (hopen : 0 ≤ w.open_device (sdp.device_name.getD ""))
    (ho : sdp.override = false) (heof : w.stdin = []) :
    Action.call .compute_constants ∈ (main_mkfs cfg w cmd).trace ↔
      (0 ≤ (w.identify_device (w.open_device (sdp.device_name.getD ""))).1 ∧
        w.input.headD (Char.ofNat 0) = 'y') := by
  obtain ⟨hcalls, _⟩ := format_device_calls w sdp hopen
  have hpass : gate_passes w sdp ↔
      (0 ≤ (w.identify_device (w.open_device (sdp.device_name.getD ""))).1 ∧
        w.input.headD (Char.ofNat 0) = 'y') := by
    unfold gate_passes
    rw [answer_of_eof w heof, ho]
    simp
  rw [mem_main_call cfg w cmd sdp hdec hver _ (by decide), ← hpass, hcalls]
  constructor
  · intro hmem
    by_contra hp
    rw [if_neg hp] at hmem
    rcases gate_calls_cases w sdp with k | k | k <;> rw [k] at hmem <;> revert hmem <;> decide
  · intro hp
    rw [if_pos hp]
    simp only [List.mem_append, List.mem_cons]
    exact Or.inr (compute_constants_mem_construct w _)

/-- C9 (the code at the failing input): with the override flag unset, standard
input at end of file (`fgets` returns `NULL` and stores nothing) and an array
`input` that holds `y` in its first byte, `are_you_sure` does not abort: the
run succeeds, and the geometry probe and the builders are invoked. -/
theorem C9_unread_answer_accepted :
    eof_world.stdin = [] ∧
    (fgets eof_world.input 32 eof_world.stdin).1 = false ∧
    sample_sbd.override = false ∧
    (main_mkfs sample_config eof_world sample_command).out = .ok () ∧
    Action.call .device_geometry ∈ (main_mkfs sample_config eof_world sample_command).trace ∧
    Action.call .build_rgrps ∈ (main_mkfs sample_config eof_world sample_command).trace ∧
    Action.call .build_sb ∈ (main_mkfs sample_config eof_world sample_command).trace := by
  rw [main_mkfs_eval sample_config eof_world sample_command sample_sbd
    (by decide) (by decide)]
  decide

end Gfs2Mkfs
